import Mathlib

/-!
Shallow embedding of the mina-sdk bridge orchestration library
(quote engine, execution orchestrator, execution registry, arrival
detector, L1 confirmation monitor), with theorems settling the
specification claims about it.  Machine integers (JS BigInt) are
modelled as `Int`, JS floating point amounts as `ℚ`, JS strings as
`String`, and fallible asynchronous calls as `Except` values driven
by explicit outcome oracles.
-/

namespace Mina

/-- Substring containment over character lists. -/
def containsSubstrAux (pat : List Char) : List Char → Bool
  | [] => pat.isEmpty
  | c :: cs => pat.isPrefixOf (c :: cs) || containsSubstrAux pat cs

/-- Substring containment test: `pat` occurs in `s`.  Mirrors the JS
`String.prototype.includes` used throughout the source. -/
def containsSubstr (s pat : String) : Bool :=
  containsSubstrAux pat.toList s.toList

/-- ASCII lowercasing of one character (the JS `toLowerCase` restricted
to the ASCII alphabet, which covers every pattern the source
matches). -/
def charToLower (c : Char) : Char :=
  if 65 ≤ c.toNat ∧ c.toNat ≤ 90 then Char.ofNat (c.toNat + 32) else c

/-- ASCII string lowercasing. -/
def strToLower (s : String) : String :=
  ⟨s.toList.map charToLower⟩

/-- ASCII hexadecimal digit test, as used by the address regular
expression `0x[a-fA-F0-9]{40}`. -/
def isHexDigit (c : Char) : Bool :=
  (48 ≤ c.toNat && c.toNat ≤ 57) ||
  (97 ≤ c.toNat && c.toNat ≤ 102) ||
  (65 ≤ c.toNat && c.toNat ≤ 70)

/-- The address check `/^0x[a-fA-F0-9]{40}$/` from the source: the
leading `0x` followed by exactly 40 hexadecimal digits. -/
def isValidAddress (s : String) : Bool :=
  match s.toList with
  | c0 :: c1 :: rest =>
    c0.toNat == 48 && c1.toNat == 120 && rest.length == 40 && rest.all isHexDigit
  | _ => false

/-- Parse a non-empty run of decimal digits into a `Nat`. -/
def parseNatDigits (cs : List Char) : Option Nat :=
  match cs with
  | [] => none
  | _ => cs.foldlM
      (fun acc c =>
        if 48 ≤ c.toNat && c.toNat ≤ 57 then some (acc * 10 + (c.toNat - 48)) else none) 0

/-- Decimal fragment of the JS `BigInt(string)` constructor: an optional
minus sign followed by decimal digits (the forms the SDK feeds it). -/
def parseBigInt (s : String) : Option Int :=
  match s.toList with
  | [] => none
  | c :: rest =>
    if c.toNat = 45 then (parseNatDigits rest).map (fun n => -(n : Int))
    else (parseNatDigits (c :: rest)).map (fun n => (n : Int))

/-- Closed sum of the SDK error values that the embedded code paths can
produce (`MinaError` subclasses plus plain `Error`s, identified by the
data each constructor carries). -/
inductive SdkError where
  | invalidQuoteParams (param : String) (reason : String)
  | noRouteFound (message : String)
  | networkError (message : String)
  | quoteFetchFailed (message : String)
  | invalidQuote (message : String) (reason : String)
  | quoteExpired (message : String) (expiredAt : Int)
  | transactionFailed (message : String) (reason : String)
  | userRejected (message : String) (step : String)
  | invalidL1Address (address : String)
  | generic (message : String)
deriving DecidableEq, Repr

/-- The `error.message` field visible to the pattern matchers. -/
def SdkError.message : SdkError → String
  | .invalidQuoteParams param reason => "Invalid quote parameter " ++ param ++ ": " ++ reason
  | .noRouteFound m => m
  | .networkError m => m
  | .quoteFetchFailed m => m
  | .invalidQuote m _ => m
  | .quoteExpired m _ => m
  | .transactionFailed m _ => m
  | .userRejected m _ => m
  | .invalidL1Address a => "Invalid wallet address format: " ++ a
  | .generic m => m

/-- Whether the error is an `instanceof UserRejectedError`. -/
def SdkError.isUserRejectedError : SdkError → Bool
  | .userRejected _ _ => true
  | _ => false

/-- The wallet user-rejection detector from the execute service:
`UserRejectedError` instances, or any error whose lowercased message
contains one of the rejection patterns. -/
def isUserRejection (e : SdkError) : Bool :=
  if e.isUserRejectedError then true
  else
    let m := strToLower e.message
    containsSubstr m "user rejected" ||
    containsSubstr m "user denied" ||
    containsSubstr m "user cancelled" ||
    containsSubstr m "rejected by user" ||
    containsSubstr m "action_rejected"

/-- The execution store recoverability heuristic over the recorded
error message (`ExecutionStore.isRecoverableError`). -/
def isRecoverableError (message : String) : Bool :=
  let m := strToLower message
  !(containsSubstr m "user rejected" ||
    containsSubstr m "user denied" ||
    containsSubstr m "insufficient balance" ||
    containsSubstr m "insufficient funds" ||
    containsSubstr m "nonce too low")

/-- Destination chain id (constants.ts). -/
def HYPEREVM_CHAIN_ID : Int := 999

/-- Default slippage tolerance in decimal format, 0.005
(constants.ts). -/
def DEFAULT_SLIPPAGE : ℚ := mkRat 5 1000

/-- Quote cache TTL in milliseconds (constants.ts). -/
def QUOTE_CACHE_TTL_MS : Int := 30000

/-- Price impact thresholds as decimals (constants.ts). -/
def PRICE_IMPACT_MEDIUM : ℚ := 5 / 1000

/-- High price impact threshold (1%). -/
def PRICE_IMPACT_HIGH : ℚ := 1 / 100

/-- Very high price impact threshold (3%). -/
def PRICE_IMPACT_VERY_HIGH : ℚ := 3 / 100

/-- Quote request parameters (`QuoteParams`). -/
structure QuoteParams where
  fromChainId : Int
  toChainId : Int
  fromToken : String
  toToken : String
  fromAmount : String
  fromAddress : String
  toAddress : Option String
  slippage : Option ℚ
deriving DecidableEq, Repr

/-- Parameter validation of the quote service (`validateQuoteParams`).
Chain resolution (`getChainById`) is abstracted as the `knownChain`
predicate over chain ids; the destination id 999 always resolves. -/
def validateQuoteParams (knownChain : Int → Bool) (p : QuoteParams) : Except SdkError Unit :=
  if p.fromChainId ≤ 0 then
    .error (.invalidQuoteParams "fromChainId" "Must be a positive chain ID")
  else if p.toChainId ≤ 0 then
    .error (.invalidQuoteParams "toChainId" "Must be a positive chain ID")
  else if !knownChain p.fromChainId && p.fromChainId != HYPEREVM_CHAIN_ID then
    .error (.invalidQuoteParams "fromChainId" "Chain is not supported")
  else if !knownChain p.toChainId && p.toChainId != HYPEREVM_CHAIN_ID then
    .error (.invalidQuoteParams "toChainId" "Chain is not supported")
  else if !isValidAddress p.fromToken then
    .error (.invalidQuoteParams "fromToken" "Must be a valid Ethereum address")
  else if !isValidAddress p.toToken then
    .error (.invalidQuoteParams "toToken" "Must be a valid Ethereum address")
  else if p.fromAmount = "" ∨ p.fromAmount = "0" then
    .error (.invalidQuoteParams "fromAmount" "Must be a non-zero amount")
  else
    match parseBigInt p.fromAmount with
    | none => .error (.invalidQuoteParams "fromAmount" "Must be a valid numeric string")
    | some amount =>
      if amount ≤ 0 then
        .error (.invalidQuoteParams "fromAmount" "Must be a positive amount")
      else if !isValidAddress p.fromAddress then
        .error (.invalidQuoteParams "fromAddress" "Must be a valid Ethereum address")
      else
        match p.slippage with
        | some s =>
          if s < 0 ∨ s > 1 then
            .error (.invalidQuoteParams "slippage" "Must be between 0 and 1")
          else .ok ()
        | none => .ok ()

/-- Price impact as a decimal, rounded to 4 places
(`calculatePriceImpact`; `Math.round` rounds half towards positive
infinity, matching `round`). -/
def calculatePriceImpact (fromAmountUsd toAmountUsd : ℚ) : ℚ :=
  if fromAmountUsd = 0 then 0
  else ((round ((fromAmountUsd - toAmountUsd) / fromAmountUsd * 10000) : ℤ) : ℚ) / 10000

/-- Price impact severity levels. -/
inductive ImpactSeverity where
  | low
  | medium
  | high
  | very_high
deriving DecidableEq, Repr

/-- Severity banding by absolute impact (`getImpactSeverity`). -/
def getImpactSeverity (priceImpact : ℚ) : ImpactSeverity :=
  if |priceImpact| ≥ PRICE_IMPACT_VERY_HIGH then .very_high
  else if |priceImpact| ≥ PRICE_IMPACT_HIGH then .high
  else if |priceImpact| ≥ PRICE_IMPACT_MEDIUM then .medium
  else .low

/-- High-impact flag (`isHighImpact`). -/
def isHighImpact (priceImpact : ℚ) : Bool :=
  |priceImpact| ≥ PRICE_IMPACT_HIGH

/-- Token data carried by aggregator responses (the address is the
only field the verified paths depend on). -/
structure LifiToken where
  address : String
deriving DecidableEq, Repr

/-- Action block of an aggregator step. -/
structure LifiAction where
  fromChainId : Int
  toChainId : Int
  fromToken : LifiToken
  toToken : LifiToken
deriving DecidableEq, Repr

/-- Estimate block of an aggregator step; the USD amounts are the
`parseFloat`-parsed optional strings (`none` when the field is
absent, so `parseFloat(x ?? \x7b0\x7d)` becomes `getD 0`). -/
structure LifiEstimate where
  fromAmount : String
  toAmount : String
  executionDuration : Int
  fromAmountUSD : Option ℚ
  toAmountUSD : Option ℚ
deriving DecidableEq, Repr

/-- One aggregator step descriptor. -/
structure LifiStep where
  id : String
  type : String
  tool : String
  action : LifiAction
  estimate : LifiEstimate
deriving DecidableEq, Repr

/-- Aggregator `/quote` response body (fields the mapper reads). -/
structure LifiQuoteResponse where
  id : String
  type : String
  tool : String
  action : LifiAction
  estimate : LifiEstimate
  includedSteps : List LifiStep
deriving DecidableEq, Repr

/-- Mapped step kinds (`Step.type`). -/
inductive QuoteStepType where
  | swap
  | bridge
  | deposit
  | approve
deriving DecidableEq, Repr

/-- Aggregator step type mapping (`mapStepType` of the quote service):
`swap` stays, `cross`/`bridge` map to bridge, everything else
defaults to bridge. -/
def mapStepType (lifiType : String) : QuoteStepType :=
  match lifiType with
  | "swap" => .swap
  | "cross" => .bridge
  | "bridge" => .bridge
  | _ => .bridge

/-- Mapped route step (`Step`). -/
structure Step where
  id : String
  type : QuoteStepType
  tool : String
  fromChainId : Int
  toChainId : Int
  fromTokenAddress : String
  toTokenAddress : String
  fromAmount : String
  toAmount : String
  estimatedTime : Int
deriving DecidableEq, Repr

/-- Map one aggregator step to a `Step`. -/
def mapLifiStep (s : LifiStep) : Step :=
  { id := s.id
    type := mapStepType s.type
    tool := s.tool
    fromChainId := s.action.fromChainId
    toChainId := s.action.toChainId
    fromTokenAddress := s.action.fromToken.address
    toTokenAddress := s.action.toToken.address
    fromAmount := s.estimate.fromAmount
    toAmount := s.estimate.toAmount
    estimatedTime := s.estimate.executionDuration }

/-- Step extraction (`extractStepsFromQuote`): flatten `includedSteps`
when present, otherwise a singleton built from the top level. -/
def extractStepsFromQuote (resp : LifiQuoteResponse) : List Step :=
  if resp.includedSteps.length > 0 then
    resp.includedSteps.map mapLifiStep
  else
    [{ id := resp.id
       type := mapStepType resp.type
       tool := resp.tool
       fromChainId := resp.action.fromChainId
       toChainId := resp.action.toChainId
       fromTokenAddress := resp.action.fromToken.address
       toTokenAddress := resp.action.toToken.address
       fromAmount := resp.estimate.fromAmount
       toAmount := resp.estimate.toAmount
       estimatedTime := resp.estimate.executionDuration }]

/-- Mapped quote (`Quote`), restricted to the fields the verified
claims inspect; fee decomposition is orthogonal to every claim and is
not projected. -/
structure Quote where
  id : String
  steps : List Step
  estimatedTime : Int
  fromAmount : String
  toAmount : String
  priceImpact : ℚ
  highImpact : Bool
  impactSeverity : ImpactSeverity
  expiresAt : Int
  includesAutoDeposit : Bool
  manualDepositRequired : Bool
deriving DecidableEq, Repr

/-- Quote mapping (`mapLifiQuoteToQuote`): USD fields default to 0 when
absent, the quote expires 60 s after `now`, and the auto-deposit flags
depend on the destination chain. -/
def mapLifiQuoteToQuote (resp : LifiQuoteResponse) (params : QuoteParams)
    (autoDeposit : Bool) (now : Int) : Quote :=
  let steps := extractStepsFromQuote resp
  let fromAmountUsd := resp.estimate.fromAmountUSD.getD 0
  let toAmountUsd := resp.estimate.toAmountUSD.getD 0
  let priceImpact := calculatePriceImpact fromAmountUsd toAmountUsd
  let estimatedTime := steps.foldl (fun total step => total + step.estimatedTime) 0
  { id := "mina-" ++ resp.id ++ "-" ++ toString now
    steps := steps
    estimatedTime := estimatedTime
    fromAmount := resp.estimate.fromAmount
    toAmount := resp.estimate.toAmount
    priceImpact := priceImpact
    highImpact := isHighImpact priceImpact
    impactSeverity := getImpactSeverity priceImpact
    expiresAt := now + 60000
    includesAutoDeposit := autoDeposit && params.toChainId == HYPEREVM_CHAIN_ID
    manualDepositRequired := !autoDeposit && params.toChainId == HYPEREVM_CHAIN_ID }

/-- Quote cache key (`QuoteCache.getKey`): the tuple interpolated into
the key string, with slippage defaulted. -/
structure QuoteKey where
  fromChainId : Int
  toChainId : Int
  fromToken : String
  toToken : String
  fromAmount : String
  fromAddress : String
  slippage : ℚ
deriving DecidableEq, Repr

/-- Key derivation from params. -/
def getKey (p : QuoteParams) : QuoteKey :=
  { fromChainId := p.fromChainId
    toChainId := p.toChainId
    fromToken := p.fromToken
    toToken := p.toToken
    fromAmount := p.fromAmount
    fromAddress := p.fromAddress
    slippage := p.slippage.getD DEFAULT_SLIPPAGE }

/-- Cache entry (`QuoteCacheEntry`): quote plus insertion timestamp. -/
structure QuoteCacheEntry where
  quote : Quote
  timestamp : Int
deriving DecidableEq, Repr

/-- The quote cache as an insertion-ordered association list, mirroring
the JS `Map`. -/
abbrev QuoteCache := List (QuoteKey × QuoteCacheEntry)

/-- Map-style set: replace in place when the key exists, append
otherwise. -/
def QuoteCache.set (c : QuoteCache) (p : QuoteParams) (q : Quote) (now : Int) : QuoteCache :=
  let k := getKey p
  if (c.lookup k).isSome then
    c.map (fun e => if e.1 == k then (k, ⟨q, now⟩) else e)
  else
    c ++ [(k, ⟨q, now⟩)]

/-- Fresh read (`QuoteCache.get`): miss once the entry is older than the
30 s TTL (the entry is kept for stale fallback). -/
def QuoteCache.get (c : QuoteCache) (p : QuoteParams) (now : Int) : Option Quote :=
  match c.lookup (getKey p) with
  | none => none
  | some entry =>
    if now - entry.timestamp > QUOTE_CACHE_TTL_MS then none
    else some entry.quote

/-- Stale read (`QuoteCache.getStale`): ignores the TTL but refuses and
deletes entries whose quote has itself expired.  Returns the possibly
shrunk cache alongside the result. -/
def QuoteCache.getStale (c : QuoteCache) (p : QuoteParams) (now : Int) :
    Option (Quote × Int) × QuoteCache :=
  let k := getKey p
  match c.lookup k with
  | none => (none, c)
  | some entry =>
    if entry.quote.expiresAt ≤ now then
      (none, c.filter (fun e => !(e.1 == k)))
    else
      (some (entry.quote, entry.timestamp), c)

/-- Outcome of the aggregator `/quote` HTTP call, as an oracle value:
a parsed body, a non-OK response with status and body text, or a
thrown fetch/parse error (timeouts included). -/
inductive FetchOutcome where
  | ok (resp : LifiQuoteResponse)
  | httpError (status : Int) (body : String)
  | fetchFailed (message : String)
deriving DecidableEq, Repr

/-- HTTP-level error mapping of `fetchQuoteFromApi`: 404 or a body
containing the no-quotes marker raise `NoRouteFound`, other non-OK
responses raise `NetworkError`, a malformed body raises
`QuoteFetchError`, and transport failures propagate as plain errors. -/
def fetchQuoteFromApi (p : QuoteParams) (outcome : FetchOutcome) :
    Except SdkError LifiQuoteResponse :=
  match outcome with
  | .httpError status body =>
    if status = 404 ∨ containsSubstr body "No available quotes" then
      .error (.noRouteFound ("No bridge route found from chain " ++ toString p.fromChainId ++
        " to chain " ++ toString p.toChainId))
    else
      .error (.networkError ("LI.FI API error: " ++ toString status))
  | .fetchFailed message => .error (.generic message)
  | .ok resp =>
    if resp.id = "" then
      .error (.quoteFetchFailed "Invalid quote response format from LI.FI API")
    else
      .ok resp

/-- Result of one `getQuote` call: the returned quote or thrown error,
the cache state afterwards, and whether the aggregator was called. -/
structure GetQuoteOut where
  result : Except SdkError Quote
  cache : QuoteCache
  usedFetch : Bool

/-- The typed errors that `getQuote` re-raises as-is; anything else is
wrapped in `QuoteFetchError`. -/
def isTypedQuoteError : SdkError → Bool
  | .noRouteFound _ => true
  | .networkError _ => true
  | .invalidQuoteParams _ _ => true
  | .quoteFetchFailed _ => true
  | _ => false

/-- The quote engine entry point (`getQuote`): validate, normalize the
slippage default, serve fresh cache hits, otherwise fetch; on fetch
error fall back to a non-expired stale entry before re-raising typed
errors or wrapping unexpected ones. -/
def getQuote (knownChain : Int → Bool) (p : QuoteParams) (autoDeposit : Bool)
    (cache : QuoteCache) (now : Int) (outcome : FetchOutcome) : GetQuoteOut :=
  match validateQuoteParams knownChain p with
  | .error e => ⟨.error e, cache, false⟩
  | .ok _ =>
    let normalized := { p with slippage := some (p.slippage.getD DEFAULT_SLIPPAGE) }
    let cached := QuoteCache.get cache normalized now
    match cached with
    | some q =>
      if q.expiresAt > now then ⟨.ok q, cache, false⟩
      else getQuoteFetchPath normalized autoDeposit cache now outcome
    | none => getQuoteFetchPath normalized autoDeposit cache now outcome
where
  /-- Fetch-and-fallback tail of `getQuote`. -/
  getQuoteFetchPath (normalized : QuoteParams) (autoDeposit : Bool)
      (cache : QuoteCache) (now : Int) (outcome : FetchOutcome) : GetQuoteOut :=
    match fetchQuoteFromApi normalized outcome with
    | .ok resp =>
      let quote := mapLifiQuoteToQuote resp normalized autoDeposit now
      ⟨.ok quote, QuoteCache.set cache normalized quote now, true⟩
    | .error e =>
      match QuoteCache.getStale cache normalized now with
      | (some (q, _), c) => ⟨.ok q, c, true⟩
      | (none, c) =>
        if isTypedQuoteError e then ⟨.error e, c, true⟩
        else ⟨.error (.quoteFetchFailed e.message), c, true⟩

/-- Overall execution status stored in the registry. -/
inductive ExecStatus where
  | pending
  | in_progress
  | completed
  | failed
deriving DecidableEq, Repr

/-- Step status values.  The registry declares
pending/active/completed/failed; the orchestrator additionally uses an
`executing` value locally, which can leak into payloads through the
unchecked cast in `updateStep`, so the model carries one union. -/
inductive StepRunStatus where
  | pending
  | active
  | executing
  | completed
  | failed
deriving DecidableEq, Repr

/-- Step kinds used by registry records (`StepType`). -/
inductive StepKind where
  | approval
  | swap
  | bridge
  | deposit
deriving DecidableEq, Repr

/-- Registry step record (`StepStatusPayload`); the stored `Error` is
projected to its message. -/
structure StepStatusPayload where
  stepId : String
  step : StepKind
  status : StepRunStatus
  txHash : Option String
  error : Option String
  timestamp : Int
deriving DecidableEq, Repr

/-- Registry entry (`ExecutionState`). -/
structure ExecutionState where
  executionId : String
  quoteId : String
  status : ExecStatus
  currentStepIndex : Int
  totalSteps : Int
  steps : List StepStatusPayload
  txHash : Option String
  receivingTxHash : Option String
  fromAmount : String
  toAmount : Option String
  receivedAmount : Option String
  fromChainId : Int
  toChainId : Int
  progress : Int
  estimatedTime : Int
  substatus : String
  error : Option String
  retryCount : Int
  previousErrors : List String
  failedStepIndex : Option Int
  createdAt : Int
  updatedAt : Int
deriving DecidableEq, Repr

/-- The in-memory registry, as the insertion-ordered association list
underlying the JS `Map`. -/
abbrev Store := List (String × ExecutionState)

/-- Capacity bound (`maxExecutions`). -/
def maxExecutions : Nat := 100

/-- Terminal statuses. -/
def isTerminal (s : ExecutionState) : Bool :=
  s.status == .completed || s.status == .failed

/-- Stable insertion by ascending `createdAt`, matching the stable JS
`Array.prototype.sort` with comparator `a.createdAt - b.createdAt`. -/
def insertByCreatedAt (x : String × ExecutionState) : Store → Store
  | [] => [x]
  | y :: ys =>
    if x.2.createdAt < y.2.createdAt then x :: y :: ys
    else y :: insertByCreatedAt x ys

/-- Stable sort by ascending `createdAt`. -/
def sortByCreatedAt (l : Store) : Store :=
  l.foldr insertByCreatedAt []

/-- One hour in milliseconds. -/
def ONE_HOUR_MS : Int := 3600000

/-- First-phase retention test of `cleanup`: an entry survives unless
it is terminal and was last touched (`updatedAt`) more than an hour
ago. -/
def cleanupKeep (now : Int) (e : String × ExecutionState) : Bool :=
  !(isTerminal e.2 && now - e.2.updatedAt > ONE_HOUR_MS)

/-- Eviction pass (`ExecutionStore.cleanup`): drop terminal entries not
touched for an hour (the staleness test reads `updatedAt`), then, if
still at capacity, drop the quarter with the oldest `createdAt`. -/
def ExecutionStore.cleanup (now : Int) (m : Store) : Store :=
  let m1 := m.filter (cleanupKeep now)
  if m1.length ≥ maxExecutions then
    let toRemove := ((sortByCreatedAt m1).take (maxExecutions / 4)).map (fun e => e.1)
    m1.filter (fun e => !(toRemove.contains e.1))
  else m1

/-- Map-style set for the registry. -/
def storeSet (id : String) (st : ExecutionState) (m : Store) : Store :=
  if (m.lookup id).isSome then
    m.map (fun e => if e.1 == id then (id, st) else e)
  else
    m ++ [(id, st)]

/-- Creation parameters (`ExecutionStore.create` argument). -/
structure CreateParams where
  executionId : String
  quoteId : String
  steps : List (String × StepKind)
  fromAmount : String
  toAmount : String
  fromChainId : Int
  toChainId : Int
  estimatedTime : Int
deriving Repr

/-- Registry insertion (`ExecutionStore.create`): evict when at
capacity, then store the initial pending state. -/
def ExecutionStore.create (now : Int) (p : CreateParams) (m : Store) : Store :=
  let m := if m.length ≥ maxExecutions then ExecutionStore.cleanup now m else m
  let state : ExecutionState :=
    { executionId := p.executionId
      quoteId := p.quoteId
      status := .pending
      currentStepIndex := 0
      totalSteps := p.steps.length
      steps := p.steps.map (fun s =>
        { stepId := s.1, step := s.2, status := .pending, txHash := none,
          error := none, timestamp := now })
      txHash := none
      receivingTxHash := none
      fromAmount := p.fromAmount
      toAmount := some p.toAmount
      receivedAmount := none
      fromChainId := p.fromChainId
      toChainId := p.toChainId
      progress := 0
      estimatedTime := p.estimatedTime
      substatus := "Initializing..."
      error := none
      retryCount := 0
      previousErrors := []
      failedStepIndex := none
      createdAt := now
      updatedAt := now }
  storeSet p.executionId state m

/-- Partial update record for `ExecutionStore.update`; `none` models an
absent key of the JS partial object. -/
structure ExecUpdate where
  status : Option ExecStatus := none
  substatus : Option String := none
  progress : Option Int := none
  txHash : Option String := none
  receivingTxHash : Option String := none
  receivedAmount : Option String := none
  error : Option String := none
  steps : Option (List StepStatusPayload) := none
deriving Repr

/-- Field merge (`ExecutionStore.update`): spread the updates over the
state and stamp `updatedAt`; unknown ids are left untouched. -/
def ExecutionStore.update (now : Int) (id : String) (u : ExecUpdate) (m : Store) : Store :=
  match m.lookup id with
  | none => m
  | some st =>
    let st' : ExecutionState :=
      { st with
        status := u.status.getD st.status
        substatus := u.substatus.getD st.substatus
        progress := u.progress.getD st.progress
        txHash := match u.txHash with | some v => some v | none => st.txHash
        receivingTxHash := match u.receivingTxHash with | some v => some v | none => st.receivingTxHash
        receivedAmount := match u.receivedAmount with | some v => some v | none => st.receivedAmount
        error := match u.error with | some v => some v | none => st.error
        steps := u.steps.getD st.steps
        updatedAt := now }
    storeSet id st' m

/-- Partial update record for `ExecutionStore.updateStep`.  The
`txHash` and `error` fields distinguish absent (`none`) from an
explicit null (`some none`), mirroring the `!== undefined` tests. -/
structure StepUpdate where
  step : Option StepKind := none
  status : Option StepRunStatus := none
  txHash : Option (Option String) := none
  error : Option (Option String) := none
deriving Repr

/-- Step rewrite (`ExecutionStore.updateStep`): rewrite the matching
step entry and merge through `update`; unknown ids or step ids leave
the store untouched. -/
def ExecutionStore.updateStep (now : Int) (id stepId : String) (u : StepUpdate) (m : Store) : Store :=
  match m.lookup id with
  | none => m
  | some st =>
    if (st.steps.find? (fun s => s.stepId == stepId)).isSome then
      let steps' := st.steps.map (fun s =>
        if s.stepId == stepId then
          { stepId := s.stepId
            step := u.step.getD s.step
            status := u.status.getD s.status
            txHash := match u.txHash with | some v => v | none => s.txHash
            error := match u.error with | some v => v | none => s.error
            timestamp := now }
        else s)
      ExecutionStore.update now id { steps := some steps' } m
    else m

/-- Error projection inside `ExecutionStatusResult`. -/
structure ExecErrorInfo where
  message : String
  step : Option String
  recoverable : Bool
deriving DecidableEq, Repr

/-- Current step projection inside `ExecutionStatusResult`. -/
structure CurrentStepInfo where
  index : Int
  type : StepKind
  status : StepRunStatus
deriving DecidableEq, Repr

/-- Status projection returned by `getExecutionStatus`
(`ExecutionStatusResult`). -/
structure ExecutionStatusResult where
  executionId : String
  found : Bool
  status : ExecStatus
  currentStep : Option CurrentStepInfo
  steps : List StepStatusPayload
  progress : Int
  txHash : Option String
  receivingTxHash : Option String
  error : Option ExecErrorInfo
  timestampCreated : Int
  timestampUpdated : Int
deriving DecidableEq, Repr

/-- Status projection (`ExecutionStore.getStatus`): unknown ids yield
the `found = false` default record rather than an error. -/
def ExecutionStore.getStatus (id : String) (m : Store) : ExecutionStatusResult :=
  match m.lookup id with
  | none =>
    { executionId := id
      found := false
      status := .pending
      currentStep := none
      steps := []
      progress := 0
      txHash := none
      receivingTxHash := none
      error := none
      timestampCreated := 0
      timestampUpdated := 0 }
  | some st =>
    { executionId := id
      found := true
      status := st.status
      currentStep :=
        (if st.currentStepIndex < 0 then none else st.steps.get? st.currentStepIndex.toNat).map
          (fun s => { index := st.currentStepIndex, type := s.step, status := s.status })
      steps := st.steps
      progress := st.progress
      txHash := st.txHash
      receivingTxHash := st.receivingTxHash
      error := st.error.map (fun msg =>
        { message := msg
          step := (st.steps.find? (fun s => s.status == .failed)).map (fun s => s.stepId)
          recoverable := isRecoverableError msg })
      timestampCreated := st.createdAt
      timestampUpdated := st.updatedAt }

/-- The write operations the registry exposes (only the orchestrator
invokes them). -/
inductive StoreOp where
  | create (now : Int) (p : CreateParams)
  | update (now : Int) (id : String) (u : ExecUpdate)
  | updateStep (now : Int) (id stepId : String) (u : StepUpdate)

/-- Apply one operation. -/
def applyOp (m : Store) : StoreOp → Store
  | .create now p => ExecutionStore.create now p m
  | .update now id u => ExecutionStore.update now id u m
  | .updateStep now id stepId u => ExecutionStore.updateStep now id stepId u m

/-- Apply a sequence of operations in order. -/
def applyOps (ops : List StoreOp) (m : Store) : Store :=
  ops.foldl applyOp m

/-- Maximum quote age accepted by the orchestrator (5 minutes). -/
def MAX_QUOTE_AGE_MS : Int := 300000

/-- Zero address used as the native token placeholder. -/
def NATIVE_TOKEN_ADDRESS : String := "0x0000000000000000000000000000000000000000"

/-- Quote validation of the execute service (`validateQuote`): reject
malformed quotes (`InvalidQuote`) and quotes past their expiry
(`QuoteExpired`); JS falsy fields are the empty string / empty list /
zero timestamp. -/
def validateQuote (q? : Option Quote) (now : Int) : Except SdkError Quote :=
  match q? with
  | none => .error (.invalidQuote "Quote is null or undefined" "null_quote")
  | some q =>
    if q.id = "" then
      .error (.invalidQuote "Quote is missing ID" "missing_id")
    else if q.steps.isEmpty then
      .error (.invalidQuote "Quote has no execution steps" "no_steps")
    else if q.fromAmount = "" ∨ q.toAmount = "" then
      .error (.invalidQuote "Quote is missing amount information" "missing_amounts")
    else if q.expiresAt ≠ 0 ∧ now > q.expiresAt then
      .error (.quoteExpired "Quote has expired, please fetch a new one" q.expiresAt)
    else
      let quoteTimestamp := if q.expiresAt ≠ 0 then q.expiresAt - MAX_QUOTE_AGE_MS else 0
      if quoteTimestamp > 0 ∧ now - quoteTimestamp > MAX_QUOTE_AGE_MS then
        .error (.quoteExpired "Quote has exceeded maximum age, please fetch a new one"
          (quoteTimestamp + MAX_QUOTE_AGE_MS))
      else .ok q

/-- Step type mapping of the execute service (its own `mapStepType`). -/
def mapExecStepType : QuoteStepType → StepKind
  | .approve => .approval
  | .swap => .swap
  | .bridge => .bridge
  | .deposit => .deposit

/-- Step kind display name used in messages and error payloads. -/
def stepKindName : StepKind → String
  | .approval => "approval"
  | .swap => "swap"
  | .bridge => "bridge"
  | .deposit => "deposit"

/-- Overall orchestrator status (`ExecutionStatus` union). -/
inductive OrchStatus where
  | idle
  | approving
  | approved
  | executing
  | bridging
  | completed
  | failed
deriving DecidableEq, Repr

/-- Uppercased status string (`status.toUpperCase()`). -/
def OrchStatus.toUpper : OrchStatus → String
  | .idle => "IDLE"
  | .approving => "APPROVING"
  | .approved => "APPROVED"
  | .executing => "EXECUTING"
  | .bridging => "BRIDGING"
  | .completed => "COMPLETED"
  | .failed => "FAILED"

/-- Mapping from orchestrator status to the registry status union. -/
def mapOrchToExecStatus : OrchStatus → ExecStatus
  | .completed => .completed
  | .failed => .failed
  | .idle => .pending
  | _ => .in_progress

/-- Substatus message table (`mapSubstatusToMessage`). -/
def mapSubstatusToMessage (substatus : String) : String :=
  match substatus with
  | "PENDING" => "Transaction pending..."
  | "NOT_PROCESSABLE_REFUND_NEEDED" => "Refund needed"
  | "UNKNOWN" => "Processing transaction..."
  | "BRIDGE_NOT_AVAILABLE" => "Bridge temporarily unavailable"
  | "CHAIN_NOT_AVAILABLE" => "Chain temporarily unavailable"
  | "REFUND_IN_PROGRESS" => "Refund in progress"
  | "COMPLETED" => "Transaction completed"
  | "WAIT_SOURCE_CONFIRMATIONS" => "Waiting for source chain confirmations..."
  | "WAIT_DESTINATION_TRANSACTION" => "Waiting for destination transaction..."
  | "PARTIAL" => "Partial transfer completed"
  | "REFUNDED" => "Transaction refunded"
  | "NOT_FOUND" => "Transaction not found"
  | _ => "Status: " ++ substatus

/-- Progress computation (`calculateProgress`): percentage of completed
steps plus the in-step contribution, rounded then capped at 100. -/
def calculateProgress (currentStep totalSteps : Int) (stepProgress : ℚ) : Int :=
  if totalSteps = 0 then 0
  else
    min 100 (round ((currentStep : ℚ) / (totalSteps : ℚ) * 100 + stepProgress / (totalSteps : ℚ) * 100))

/-- Allowance check (`checkApprovalNeeded`): native tokens never need
approval; a failed allowance fetch or an unparsable amount makes the
code assume approval is needed. -/
def checkApprovalNeeded (tokenAddress : String) (allowance : Option Int) (amount : String) : Bool :=
  if tokenAddress = NATIVE_TOKEN_ADDRESS ∨
     strToLower tokenAddress = "0xeeeeeeeeeeeeeeeeeeeeeeeeeeeeeeeeeeeeeeee" then
    false
  else
    match allowance, parseBigInt amount with
    | some a, some required => a < required
    | _, _ => true

/-- Local step status record of the orchestrator (`StepStatus` of
types.ts). -/
structure OrchStepStatus where
  stepId : String
  stepType : StepKind
  status : StepRunStatus
  txHash : Option String := none
  error : Option String := none
  updatedAt : Int
deriving DecidableEq, Repr

/-- Initial step statuses (`createInitialStepStatuses`). -/
def createInitialStepStatuses (steps : List Step) (now : Int) : List OrchStepStatus :=
  steps.map (fun s =>
    { stepId := s.id, stepType := mapExecStepType s.type, status := .pending, updatedAt := now })

/-- SDK events relevant to the orchestrator, by name. -/
inductive SdkEvent where
  | executionStarted
  | stepChanged
  | approvalRequired
  | transactionSent
  | transactionConfirmed
  | statusChanged
  | executionCompleted
  | executionFailed
deriving DecidableEq, Repr

/-- Mutable locals of one `execute` call, threaded explicitly. -/
structure LoopState where
  stepStatuses : List OrchStepStatus
  events : List SdkEvent
  store : Store
  currentStepIndex : Int
  finalTxHash : Option String := none
  receivedAmount : Option String := none
  receivingTxHash : Option String := none
deriving Repr

/-- Per-call context of `execute`. -/
structure OrchCtx where
  quote : Quote
  executionId : String
  now : Int
deriving Repr

/-- Emit an SDK event (listener exceptions are swallowed by the
emitter, so emission is pure appending here). -/
def emitEvent (st : LoopState) (e : SdkEvent) : LoopState :=
  { st with events := st.events ++ [e] }

/-- The `updateStatus` closure of `execute`: map the status, update the
registry entry (status, substatus, progress) and emit
`STATUS_CHANGED`. -/
def updateStatus (ctx : OrchCtx) (st : LoopState) (status : OrchStatus) (substatus : String) :
    LoopState :=
  let totalSteps : Int := ctx.quote.steps.length
  let mapped := mapOrchToExecStatus status
  let sub := if substatus = "" then mapSubstatusToMessage status.toUpper else substatus
  let prog := calculateProgress st.currentStepIndex totalSteps
    (if status = .completed then 1 else 1 / 2)
  let store := ExecutionStore.update ctx.now ctx.executionId
    { status := some mapped, substatus := some sub, progress := some prog } st.store
  emitEvent { st with store := store } .statusChanged

/-- Partial update passed to the `updateStep` closure. -/
structure OrchStepUpdate where
  status : Option StepRunStatus := none
  txHash : Option String := none
  error : Option String := none
deriving Repr

/-- The `updateStep` closure of `execute`: merge into the local step
array, push the merged record into the registry (mapping the local
`executing` value to `active` only when explicitly updated), and emit
`STEP_CHANGED`. -/
def updateStep (ctx : OrchCtx) (st : LoopState) (stepId : String) (u : OrchStepUpdate) :
    LoopState :=
  let stepStatuses := st.stepStatuses.map (fun s =>
    if s.stepId == stepId then
      { s with
        status := u.status.getD s.status
        txHash := match u.txHash with | some v => some v | none => s.txHash
        error := match u.error with | some v => some v | none => s.error
        updatedAt := ctx.now }
    else s)
  let st := { st with stepStatuses := stepStatuses }
  match stepStatuses.find? (fun s => s.stepId == stepId) with
  | none => st
  | some merged =>
    let storeStatus := if u.status == some .executing then .active else u.status.getD merged.status
    let store := ExecutionStore.updateStep ctx.now ctx.executionId stepId
      { step := some merged.stepType
        status := some storeStatus
        txHash := some (match u.txHash with | some v => some v | none => merged.txHash)
        error := some (match u.error with
          | some msg => if msg == "" then none else some msg
          | none => none) } st.store
    emitEvent { st with store := store } .stepChanged

/-- Estimate block of a step transaction re-quote. -/
structure StepTxEstimate where
  approvalAddress : Option String := none
deriving Repr

/-- Step transaction re-quote response (`LifiStepTransactionResponse`);
the raw transaction request is consumed opaquely by the signer
oracle. -/
structure StepTxResponse where
  estimate : Option StepTxEstimate := none
deriving Repr

/-- Final aggregator status for a completed step. -/
structure LifiFinal where
  receivingTxHash : Option String := none
  receivingAmount : Option String := none
deriving Repr

/-- Outcomes of the suspending calls made while processing one step:
the step re-quote, the allowance read (`none` models a failed fetch),
the approval transaction construction, the two signer submissions and
the completion polling (`waitForCompletion`, whose transient network
errors are retried internally and never surface). -/
structure StepOracle where
  stepTx : Except SdkError StepTxResponse
  allowance : Option Int := none
  approvalTx : Except SdkError Unit := .ok ()
  approvalSend : Except SdkError String := .ok "0xapproval"
  mainSend : Except SdkError String
  completion : Except SdkError LifiFinal
deriving Repr

/-- Outcomes of every suspending call of one `execute` run. -/
structure ExecOracle where
  getAddress : Except SdkError String
  step : Nat → StepOracle

/-- Approval phase of one step of the loop of `execute`: skip when the
re-quote names no approval address or the allowance suffices, otherwise
build and submit the approval transaction, normalising wallet
rejections. -/
def runStepApproval (ctx : OrchCtx) (step : Step) (stepTx : StepTxResponse) (so : StepOracle)
    (st : LoopState) : Except (SdkError × LoopState) LoopState :=
  match (if step.type != .approve then stepTx.estimate.bind (fun est => est.approvalAddress) else none) with
  | none => .ok st
  | some _spender =>
    if checkApprovalNeeded step.fromTokenAddress so.allowance step.fromAmount then
      let st := updateStatus ctx st .approving "Waiting for token approval..."
      let st := emitEvent st .approvalRequired
      match so.approvalTx with
      | .error e =>
        .error ((if isUserRejection e then
          .userRejected "User rejected approval transaction" "approval" else e), st)
      | .ok _ =>
        match so.approvalSend with
        | .error e =>
          .error ((if isUserRejection e then
            .userRejected "User rejected approval transaction" "approval" else e), st)
        | .ok approvalTxHash =>
          let st := emitEvent st .transactionSent
          let st := updateStatus ctx st .approved "Token approval confirmed"
          let st := emitEvent st .transactionConfirmed
          .ok (updateStep ctx st step.id { txHash := some approvalTxHash })
    else .ok st

/-- Main-transaction phase of one step of the loop of `execute`: submit
the step transaction (normalising wallet rejections), then wait for
completion, recording receiving amount and hash. -/
def runStepMain (ctx : OrchCtx) (step : Step) (so : StepOracle) (st : LoopState) :
    Except (SdkError × LoopState) LoopState :=
  let stepKind := mapExecStepType step.type
  let st := updateStatus ctx st .executing ("Executing " ++ stepKindName stepKind ++ "...")
  match so.mainSend with
  | .error e =>
    if isUserRejection e then
      let st := updateStep ctx st step.id { status := some .failed, error := some "User rejected" }
      .error (.userRejected "User rejected transaction" (stepKindName stepKind), st)
    else
      let st := updateStep ctx st step.id { status := some .failed, error := some e.message }
      .error (e, st)
  | .ok txHash =>
    let st := { st with finalTxHash := some txHash }
    let st := emitEvent st .transactionSent
    let st := updateStep ctx st step.id { status := some .executing, txHash := some txHash }
    let store1 := ExecutionStore.update ctx.now ctx.executionId
      { txHash := some txHash } st.store
    let st := { st with store := store1 }
    let st := updateStatus ctx st .bridging "Waiting for bridge confirmation..."
    match so.completion with
    | .error e =>
      if isUserRejection e then
        let st := updateStep ctx st step.id { status := some .failed, error := some "User rejected" }
        .error (.userRejected "User rejected transaction" (stepKindName stepKind), st)
      else
        let st := updateStep ctx st step.id { status := some .failed, error := some e.message }
        .error (e, st)
    | .ok finalStatus =>
      let st := emitEvent st .transactionConfirmed
      let st := updateStep ctx st step.id { status := some .completed, txHash := some txHash }
      let st := match finalStatus.receivingAmount with
        | some amt =>
          let store2 := ExecutionStore.update ctx.now ctx.executionId
            { receivedAmount := some amt } st.store
          { st with receivedAmount := some amt, store := store2 }
        | none => st
      let st := match finalStatus.receivingTxHash with
        | some h => { st with receivingTxHash := some h }
        | none => st
      .ok st

/-- Process one non-deposit step of the pipeline (the body of the
per-step loop of `execute`); a thrown error carries the locals at the
throw point so the outer catch can observe them. -/
def runStep (ctx : OrchCtx) (i : Nat) (step : Step) (so : StepOracle) (st : LoopState) :
    Except (SdkError × LoopState) LoopState :=
  let st := { st with currentStepIndex := (i : Int) }
  if step.type == .deposit then
    .ok (updateStep ctx st step.id { status := some .pending })
  else
    let st := updateStep ctx st step.id { status := some .executing }
    match so.stepTx with
    | .error e => .error (e, st)
    | .ok stepTx =>
      match runStepApproval ctx step stepTx so st with
      | .error es => .error es
      | .ok st => runStepMain ctx step so st

/-- The per-step loop of `execute`. -/
def runSteps (ctx : OrchCtx) (oracle : ExecOracle) :
    Nat → List Step → LoopState → Except (SdkError × LoopState) LoopState
  | _, [], st => .ok st
  | i, step :: rest, st =>
    match runStep ctx i step (oracle.step i) st with
    | .error es => .error es
    | .ok st' => runSteps ctx oracle (i + 1) rest st'

/-- Result returned by `execute` (`ExecutionResult`). -/
structure ExecutionResult where
  executionId : String
  status : ExecStatus
  steps : List OrchStepStatus
  txHash : Option String
  fromAmount : String
  toAmount : String
  receivedAmount : Option String
  depositTxHash : Option String
  error : Option SdkError
deriving Repr

/-- Observable effects of one `execute` call: the resolved result (or
the error thrown by quote validation), the emitted events and the
registry afterwards. -/
structure ExecuteOut where
  outcome : Except SdkError ExecutionResult
  events : List SdkEvent
  store : Store

/-- The success tail of `execute`: mark the execution completed in the
registry, emit `EXECUTION_COMPLETED` and build the resolved result. -/
def executeOk (quote : Quote) (executionId : String) (now : Int) (st : LoopState) : ExecuteOut :=
  let ctx : OrchCtx := { quote := quote, executionId := executionId, now := now }
  let st := updateStatus ctx st .completed "Bridge completed successfully"
  let storeDone := ExecutionStore.update now executionId
    { status := some .completed, progress := some 100,
      substatus := some "Bridge completed successfully" } st.store
  let st := { st with store := storeDone }
  let st := emitEvent st .executionCompleted
  ⟨.ok { executionId := executionId
         status := .completed
         steps := st.stepStatuses
         txHash := st.finalTxHash
         fromAmount := quote.fromAmount
         toAmount := quote.toAmount
         receivedAmount := st.receivedAmount
         depositTxHash := none
         error := none },
   st.events, st.store⟩

/-- The outer catch of `execute`: mark pending and active steps failed,
record the error in the registry, emit `EXECUTION_FAILED` and resolve
with a failed result instead of rethrowing. -/
def executeFail (quote : Quote) (executionId : String) (now : Int) (e : SdkError)
    (st : LoopState) : ExecuteOut :=
  let ctx : OrchCtx := { quote := quote, executionId := executionId, now := now }
  let st := updateStatus ctx st .failed e.message
  let failedSteps : List OrchStepStatus := st.stepStatuses.map (fun s =>
    if s.status == .pending || s.status == .executing then
      { s with status := .failed, updatedAt := now }
    else s)
  let st := { st with stepStatuses := failedSteps }
  let storeFail := ExecutionStore.update now executionId
    { status := some .failed, error := some e.message, substatus := some e.message } st.store
  let st := { st with store := storeFail }
  let st := emitEvent st .executionFailed
  ⟨.ok { executionId := executionId
         status := .failed
         steps := st.stepStatuses
         txHash := st.finalTxHash
         fromAmount := quote.fromAmount
         toAmount := quote.toAmount
         receivedAmount := none
         depositTxHash := none
         error := some e },
   st.events, st.store⟩

/-- The orchestrator (`execute`): validate, open the registry entry,
run the step pipeline, and funnel any pipeline error into a resolved
failed result via the outer catch. -/
def execute (q? : Option Quote) (executionId : String) (oracle : ExecOracle)
    (store : Store) (now : Int) : ExecuteOut :=
  match validateQuote q? now with
  | .error e => ⟨.error e, [], store⟩
  | .ok quote =>
    let store := ExecutionStore.create now
      { executionId := executionId
        quoteId := quote.id
        steps := quote.steps.map (fun s => (s.id, mapExecStepType s.type))
        fromAmount := quote.fromAmount
        toAmount := quote.toAmount
        fromChainId := (quote.steps.head?.map (fun s => s.fromChainId)).getD 0
        toChainId := (quote.steps.getLast?.map (fun s => s.toChainId)).getD 0
        estimatedTime := quote.estimatedTime } store
    let ctx : OrchCtx := { quote := quote, executionId := executionId, now := now }
    let st0 : LoopState :=
      { stepStatuses := createInitialStepStatuses quote.steps now
        events := [.executionStarted]
        store := store
        currentStepIndex := 0 }
    let run : Except (SdkError × LoopState) LoopState :=
      match oracle.getAddress with
      | .error e => .error (e, st0)
      | .ok _ => runSteps ctx oracle 0 quote.steps st0
    match run with
    | .ok st => executeOk quote executionId now st
    | .error es => executeFail quote executionId now es.1 es.2

/-- Loop invariant threaded through the pipeline of one `execute` call:
`EXECUTION_COMPLETED` has not been emitted, no local step status holds
the registry-only `active` value, and the registry still holds the
entry opened for this execution. -/
def loopInv (execId : String) (st : LoopState) : Prop :=
  SdkEvent.executionCompleted ∉ st.events ∧
  (∀ s ∈ st.stepStatuses, s.status ≠ StepRunStatus.active) ∧
  (st.store.lookup execId).isSome = true

/-- Tolerance floor used by the detectors: at least 99% of the
expected amount, via truncating BigInt division. -/
def minExpectedOf (expected : Int) : Int :=
  (expected * 99).tdiv 100

/-- Successful arrival detection payload (`UsdcArrivalResult` with
`detected = true`; balances as bigints). -/
structure UsdcArrivalResult where
  amount : Int
  previousBalance : Int
  currentBalance : Int
deriving DecidableEq, Repr

/-- The polling loop of `detectUsdcArrivalFromSnapshot`.  Each list
element is one poll: `none` when the balance fetch threw (logged and
skipped), `some b` for an observed balance.  The list length is the
number of polls the timeout budget admits; exhausting it raises the
arrival-timeout error carrying the last observed balance
(`Except.error`). -/
def detectLoop (previousBalance : Int) (expectedAmount : Option Int) :
    List (Option Int) → Int → Except Int UsdcArrivalResult
  | [], lastBalance => .error lastBalance
  | poll :: rest, lastBalance =>
    match poll with
    | none => detectLoop previousBalance expectedAmount rest lastBalance
    | some currentBalance =>
      let difference := currentBalance - previousBalance
      if difference > 0 then
        match expectedAmount with
        | some expected =>
          if difference < minExpectedOf expected then
            detectLoop previousBalance expectedAmount rest currentBalance
          else
            .ok ⟨difference, previousBalance, currentBalance⟩
        | none => .ok ⟨difference, previousBalance, currentBalance⟩
      else
        detectLoop previousBalance expectedAmount rest currentBalance

/-- Snapshot-based arrival detection
(`detectUsdcArrivalFromSnapshot`): the last-balance accumulator starts
at the snapshot. -/
def detectUsdcArrivalFromSnapshot (previousBalance : Int) (expectedAmount : Option Int)
    (polls : List (Option Int)) : Except Int UsdcArrivalResult :=
  detectLoop previousBalance expectedAmount polls previousBalance

/-- Whether one observed balance satisfies the detection condition the
code implements: a positive delta that also clears the tolerance floor
when an expected amount is given. -/
def qualifiesPoll (previousBalance : Int) (expectedAmount : Option Int) (b : Int) : Prop :=
  b - previousBalance > 0 ∧
    ∀ e, expectedAmount = some e → b - previousBalance ≥ minExpectedOf e

instance (previousBalance : Int) (expectedAmount : Option Int) (b : Int) :
    Decidable (qualifiesPoll previousBalance expectedAmount b) := by
  unfold qualifiesPoll
  infer_instance

/-- Hard maximum timeout of the L1 monitor (30 minutes). -/
def L1_HARD_MAX_TIMEOUT_MS : Int := 1800000

/-- Default soft timeout of the L1 monitor (2 minutes). -/
def L1_CONFIRMATION_TIMEOUT_MS : Int := 120000

/-- One iteration of the L1 monitoring loop together with the
controller interactions that happened during the preceding sleep:
`elapsed` is `Date.now() - startTime` at the iteration start,
`cancelNow` records a `cancel()` call, `extendCalls` the arguments of
`extendTimeout` calls, and `poll` the balance fetch outcome (`none`
when it threw; such failures are logged and polling continues). -/
structure L1Tick where
  elapsed : Int
  cancelNow : Bool := false
  extendCalls : List Int := []
  poll : Option Int := none
deriving Repr

/-- Mutable monitor state: current soft budget, the one-shot warning
latch, the cancellation flag and the count of warnings emitted so
far. -/
structure L1State where
  timeout : Int
  timeoutWarningEmitted : Bool := false
  cancelled : Bool := false
  warnings : Nat := 0
deriving DecidableEq, Repr

/-- Effect of one `extendTimeout(ms)` call: grow the soft budget and
re-arm the warning latch. -/
def extendOnce (s : L1State) (ms : Int) : L1State :=
  { s with timeout := s.timeout + ms, timeoutWarningEmitted := false }

/-- Apply the controller calls that happened before an iteration:
`cancel()` latches the flag, each `extendTimeout(ms)` grows the soft
budget and re-arms the warning. -/
def applyController (s : L1State) (t : L1Tick) : L1State :=
  let s := if t.cancelNow then { s with cancelled := true } else s
  t.extendCalls.foldl extendOnce s

/-- Outcome of running the monitor loop over a finite schedule of
iterations: confirmation, rejection (cancelled / hard cap), or still
running when the schedule is exhausted. -/
inductive L1Outcome where
  | confirmed (amount : Int) (s : L1State)
  | cancelledOut (elapsed : Int) (s : L1State)
  | maxTimeout (elapsed : Int) (s : L1State)
  | running (s : L1State)
deriving Repr

/-- Final monitor state of an outcome. -/
def L1Outcome.state : L1Outcome → L1State
  | .confirmed _ s => s
  | .cancelledOut _ s => s
  | .maxTimeout _ s => s
  | .running s => s

/-- The monitoring loop of `monitorL1Confirmation`: per iteration check
cancellation, then the hard cap, then poll (confirming once the delta
reaches 99% of the expected amount), then emit the soft-timeout
warning at most once per activation, and sleep. -/
def monitorLoop (initialBalance expectedAmount : Int) :
    L1State → List L1Tick → L1Outcome
  | s, [] => .running s
  | s, t :: rest =>
    let s := applyController s t
    if s.cancelled then .cancelledOut t.elapsed s
    else if t.elapsed > L1_HARD_MAX_TIMEOUT_MS then .maxTimeout t.elapsed s
    else
      match t.poll with
      | some currentBalance =>
        if currentBalance - initialBalance ≥ minExpectedOf expectedAmount then
          .confirmed (currentBalance - initialBalance) s
        else
          monitorLoop initialBalance expectedAmount (l1AfterPoll s t) rest
      | none =>
        monitorLoop initialBalance expectedAmount (l1AfterPoll s t) rest
where
  /-- Soft-timeout warning step at the end of an iteration. -/
  l1AfterPoll (s : L1State) (t : L1Tick) : L1State :=
    if t.elapsed > s.timeout ∧ !s.timeoutWarningEmitted then
      { s with timeoutWarningEmitted := true, warnings := s.warnings + 1 }
    else s

/-- Entry point (`monitorL1Confirmation`): the wallet address is
validated upfront and an invalid one throws synchronously. -/
def monitorL1Confirmation (walletAddress : String) (initialBalance expectedAmount : Int)
    (initialTimeout : Int) (ticks : List L1Tick) : Except SdkError L1Outcome :=
  if !isValidAddress walletAddress then
    .error (.invalidL1Address walletAddress)
  else
    .ok (monitorLoop initialBalance expectedAmount { timeout := initialTimeout } ticks)

/-- A tick that triggers none of the loop exits: no cancellation, the
hard cap not yet crossed, and no qualifying balance observation. -/
def l1NoTrigger (initialBalance expectedAmount : Int) (t : L1Tick) : Prop :=
  t.cancelNow = false ∧ t.elapsed ≤ L1_HARD_MAX_TIMEOUT_MS ∧
    ∀ b, t.poll = some b → b - initialBalance < minExpectedOf expectedAmount

/-- Total number of `extendTimeout` calls in a schedule. -/
def countExtendCalls (ticks : List L1Tick) : Nat :=
  (ticks.map (fun t => t.extendCalls.length)).sum

/-- Warning potential of a monitor state: warnings already emitted plus
one if the latch is still armed.  Controller extensions raise it by at
most one each; the warning step never raises it. -/
def l1W (s : L1State) : Nat :=
  s.warnings + (if s.timeoutWarningEmitted then 0 else 1)

/-- Concrete aggregator response whose estimate carries
`fromAmountUSD = "1000"` but no `toAmountUSD` field. -/
def c2Resp : LifiQuoteResponse :=
  { id := "step-1"
    type := "cross"
    tool := "relay"
    action :=
      { fromChainId := 1
        toChainId := 999
        fromToken := ⟨"0xa0b86991c6218b36c1d19d4a2e9eb0ce3606eb48"⟩
        toToken := ⟨"0xb88339cb7199b77e23db6e890353e22632ba630f"⟩ }
    estimate :=
      { fromAmount := "1000000000"
        toAmount := "999000000"
        executionDuration := 120
        fromAmountUSD := some 1000
        toAmountUSD := none }
    includedSteps := [] }

/-- Params matching `c2Resp`. -/
def c2Params : QuoteParams :=
  { fromChainId := 1
    toChainId := 999
    fromToken := "0xa0b86991c6218b36c1d19d4a2e9eb0ce3606eb48"
    toToken := "0xb88339cb7199b77e23db6e890353e22632ba630f"
    fromAmount := "1000000000"
    fromAddress := "0x1234567890abcdef1234567890abcdef12345678"
    toAddress := none
    slippage := some (5 / 1000) }

/-- Chain catalog containing only chain 1 (plus the always-resolving
destination). -/
def c3KnownChains : Int → Bool := fun c => c == 1

/-- Concrete parameters with every field valid and slippage 0.5. -/
def c3Params : QuoteParams :=
  { fromChainId := 1
    toChainId := 999
    fromToken := "0xa0b86991c6218b36c1d19d4a2e9eb0ce3606eb48"
    toToken := "0xb88339cb7199b77e23db6e890353e22632ba630f"
    fromAmount := "1000000000"
    fromAddress := "0x1234567890abcdef1234567890abcdef12345678"
    toAddress := none
    slippage := some (mkRat 1 2) }

/-- C3 base params without slippage, for the witness. -/
def c3ParamsNoSlip : QuoteParams := { c3Params with slippage := none }

/-- Last successfully observed balance over a poll sequence, starting
from a default. -/
def lastObserved : List (Option Int) → Int → Int
  | [], last => last
  | none :: rest, last => lastObserved rest last
  | some b :: rest, _ => lastObserved rest b

/-- The wrap step of the re-raise branch of `getQuote`. -/
def quoteErrorMapped (e : SdkError) : SdkError :=
  if isTypedQuoteError e then e else .quoteFetchFailed e.message

/-- Chain catalog fixture for the cache witnesses. -/
def wChains : Int → Bool := fun c => c == 1

/-- Concrete step fixture. -/
def w6Step : Step :=
  { id := "s1"
    type := .bridge
    tool := "relay"
    fromChainId := 1
    toChainId := 999
    fromTokenAddress := "0xa0b86991c6218b36c1d19d4a2e9eb0ce3606eb48"
    toTokenAddress := "0xb88339cb7199b77e23db6e890353e22632ba630f"
    fromAmount := "1000000000"
    toAmount := "999000000"
    estimatedTime := 120 }

/-- Concrete cached quote fixture, created at t = 1000000000 and
expiring 60 s later. -/
def w6Quote : Quote :=
  { id := "mina-q-1"
    steps := [w6Step]
    estimatedTime := 120
    fromAmount := "1000000000"
    toAmount := "999000000"
    priceImpact := 0
    highImpact := false
    impactSeverity := .low
    expiresAt := 1000060000
    includesAutoDeposit := true
    manualDepositRequired := false }

/-- Params fixture for the cache witnesses (slippage left to the
default). -/
def w6Params : QuoteParams :=
  { fromChainId := 1
    toChainId := 999
    fromToken := "0xa0b86991c6218b36c1d19d4a2e9eb0ce3606eb48"
    toToken := "0xb88339cb7199b77e23db6e890353e22632ba630f"
    fromAmount := "1000000000"
    fromAddress := "0x1234567890abcdef1234567890abcdef12345678"
    toAddress := none
    slippage := none }

/-- Cache fixture holding the quote under its derived key. -/
def w6Cache : QuoteCache := [(getKey w6Params, ⟨w6Quote, 1000000000⟩)]

/-- An in-progress registry entry created at minute `i` (timestamps in
milliseconds are immaterial to the ordering arguments). -/
def mkRunningEntry (i : Nat) : ExecutionState :=
  { executionId := "e" ++ toString i
    quoteId := "q"
    status := .in_progress
    currentStepIndex := 0
    totalSteps := 1
    steps := []
    txHash := none
    receivingTxHash := none
    fromAmount := "1"
    toAmount := none
    receivedAmount := none
    fromChainId := 1
    toChainId := 999
    progress := 0
    estimatedTime := 0
    substatus := ""
    error := none
    retryCount := 0
    previousErrors := []
    failedStepIndex := none
    createdAt := (i : Int)
    updatedAt := 7200000 }

/-- A completed entry whose `createdAt` (99 ms) is hours in the past at
`now = 7200000` but whose `updatedAt` is fresh. -/
def tEntry : ExecutionState :=
  { mkRunningEntry 0 with
    executionId := "t"
    status := .completed
    createdAt := 99
    updatedAt := 7200000 }

/-- A registry at exactly its capacity of 100: 99 running entries with
`createdAt` 0..98 and the terminal entry `t` with `createdAt` 99. -/
def c5Store : Store :=
  ((List.range 99).map (fun i => ("e" ++ toString i, mkRunningEntry i))) ++ [("t", tEntry)]

/-- Creation parameters of the IDs-fresh execution inserted into the
full registry. -/
def c5NewParams : CreateParams :=
  { executionId := "new"
    quoteId := "q"
    steps := []
    fromAmount := "1"
    toAmount := "1"
    fromChainId := 1
    toChainId := 999
    estimatedTime := 0 }

/-- A terminal entry stale by `updatedAt`, for the eviction witness. -/
def c5StaleEntry : ExecutionState :=
  { mkRunningEntry 0 with
    executionId := "x"
    status := .completed
    createdAt := 0
    updatedAt := 0 }

/-- An oracle whose every suspending call fails with a network error
(no external service reachable). -/
def trivialOracle : ExecOracle :=
  { getAddress := .ok "0x1234567890abcdef1234567890abcdef12345678"
    step := fun _ =>
      { stepTx := .error (.networkError "offline")
        mainSend := .error (.networkError "offline")
        completion := .error (.networkError "offline") } }

/-- An oracle whose step re-quote (`getStepTransaction`) fails with a
wrapped error whose message matches a wallet user-rejection pattern. -/
def c1Oracle : ExecOracle :=
  { getAddress := .ok "0x1234567890abcdef1234567890abcdef12345678"
    step := fun _ =>
      { stepTx := .error
          (.networkError "Failed to get step transaction: User rejected the request")
        mainSend := .error (.networkError "offline")
        completion := .error (.networkError "offline") } }

/-- The `found = false` projection `getStatus` returns for unknown
ids. -/
def emptyStatusResult (id : String) : ExecutionStatusResult :=
  { executionId := id
    found := false
    status := .pending
    currentStep := none
    steps := []
    progress := 0
    txHash := none
    receivingTxHash := none
    error := none
    timestampCreated := 0
    timestampUpdated := 0 }

/-! Severity of the two impact values relevant to claim C2. -/

lemma getImpactSeverity_one : getImpactSeverity 1 = .very_high := by
  unfold getImpactSeverity PRICE_IMPACT_VERY_HIGH
  rw [abs_one, if_pos (by norm_num)]

lemma getImpactSeverity_zero : getImpactSeverity 0 = .low := by
  unfold getImpactSeverity PRICE_IMPACT_VERY_HIGH PRICE_IMPACT_HIGH PRICE_IMPACT_MEDIUM
  rw [abs_zero, if_neg (by norm_num), if_neg (by norm_num), if_neg (by norm_num)]

/-- C2 counterexample: for a response whose estimate lacks
`toAmountUSD` while `fromAmountUSD` is present and non-zero, the
mapped quote has `priceImpact = 1` and severity `very_high` — not
`priceImpact = 0` with severity `low` as the claim states. -/
theorem C2_counterexample :
    c2Resp.estimate.toAmountUSD = none ∧
    c2Resp.estimate.fromAmountUSD = some 1000 ∧
    (mapLifiQuoteToQuote c2Resp c2Params true 0).priceImpact = 1 ∧
    (mapLifiQuoteToQuote c2Resp c2Params true 0).impactSeverity = ImpactSeverity.very_high := by
  refine ⟨rfl, rfl, ?_, ?_⟩
  · show calculatePriceImpact 1000 0 = 1
    norm_num [calculatePriceImpact, round_eq]
  · show getImpactSeverity (calculatePriceImpact 1000 0) = ImpactSeverity.very_high
    have h : calculatePriceImpact 1000 0 = 1 := by norm_num [calculatePriceImpact, round_eq]
    rw [h, getImpactSeverity_one]

/-- C2 (amended): when the aggregator estimate lacks `toAmountUSD`, the
parsed value defaults to 0; if `fromAmountUSD` is present and non-zero
the mapped quote then has price impact 1 and severity `very_high`,
while impact 0 with severity `low` arises exactly when `fromAmountUSD`
is also missing or zero. -/
theorem C2_amended (resp : LifiQuoteResponse) (p : QuoteParams) (autoDeposit : Bool) (now : Int)
    (hto : resp.estimate.toAmountUSD = none) :
    (resp.estimate.fromAmountUSD.getD 0 ≠ 0 →
      (mapLifiQuoteToQuote resp p autoDeposit now).priceImpact = 1 ∧
      (mapLifiQuoteToQuote resp p autoDeposit now).impactSeverity = ImpactSeverity.very_high) ∧
    (resp.estimate.fromAmountUSD.getD 0 = 0 →
      (mapLifiQuoteToQuote resp p autoDeposit now).priceImpact = 0 ∧
      (mapLifiQuoteToQuote resp p autoDeposit now).impactSeverity = ImpactSeverity.low) := by
  have hpi : (mapLifiQuoteToQuote resp p autoDeposit now).priceImpact =
      calculatePriceImpact (resp.estimate.fromAmountUSD.getD 0)
        (resp.estimate.toAmountUSD.getD 0) := rfl
  have hsev : (mapLifiQuoteToQuote resp p autoDeposit now).impactSeverity =
      getImpactSeverity (calculatePriceImpact (resp.estimate.fromAmountUSD.getD 0)
        (resp.estimate.toAmountUSD.getD 0)) := rfl
  rw [hto] at hpi hsev
  simp only [Option.getD_none] at hpi hsev
  constructor
  · intro hf
    have h1 : calculatePriceImpact (resp.estimate.fromAmountUSD.getD 0) 0 = 1 := by
      unfold calculatePriceImpact
      rw [if_neg hf, sub_zero, div_self hf, one_mul]
      norm_num [round_eq]
    rw [hpi, h1, hsev, h1, getImpactSeverity_one]
    exact ⟨rfl, rfl⟩
  · intro hf
    have h0 : calculatePriceImpact (resp.estimate.fromAmountUSD.getD 0) 0 = 0 := by
      unfold calculatePriceImpact
      rw [if_pos hf]
    rw [hpi, h0, hsev, h0, getImpactSeverity_zero]
    exact ⟨rfl, rfl⟩

/-- C2 witness: the amended theorem applied at the concrete response. -/
theorem C2_amended_witness :
    (mapLifiQuoteToQuote c2Resp c2Params true 0).priceImpact = 1 ∧
    (mapLifiQuoteToQuote c2Resp c2Params true 0).impactSeverity = ImpactSeverity.very_high :=
  (C2_amended c2Resp c2Params true 0 rfl).1 (by norm_num [c2Resp])

/-! Claim C3: slippage validation. -/

/-- C3 counterexample: a slippage of 0.5, far outside the claimed
interval [0.0001, 0.05], is accepted by `validateQuoteParams`. -/
theorem C3_counterexample :
    validateQuoteParams c3KnownChains c3Params = .ok () ∧
    c3Params.slippage = some (mkRat 1 2) ∧
    ¬ ((1 / 10000 : ℚ) ≤ mkRat 1 2 ∧ (mkRat 1 2 : ℚ) ≤ 5 / 100) := by
  refine ⟨rfl, rfl, ?_⟩
  rw [Rat.mkRat_eq_div]
  norm_num

set_option maxHeartbeats 1600000 in
/-- The slippage check is the last one and is independent of the other
fields: if validation passes with no slippage provided, providing one
routes the call to exactly the interval check. -/
lemma validateQuoteParams_slippage (kc : Int → Bool) (p : QuoteParams) (s : ℚ)
    (hbase : validateQuoteParams kc { p with slippage := none } = .ok ()) :
    validateQuoteParams kc { p with slippage := some s } =
      if s < 0 ∨ s > 1 then .error (.invalidQuoteParams "slippage" "Must be between 0 and 1")
      else .ok () := by
  unfold validateQuoteParams at hbase ⊢
  dsimp only at hbase ⊢
  generalize hpb : parseBigInt p.fromAmount = pb at hbase ⊢
  cases pb
  case none =>
    dsimp only at hbase ⊢
    split_ifs at hbase ⊢
  case some a =>
    dsimp only at hbase ⊢
    split_ifs at hbase ⊢ <;> try rfl

/-- C3 (amended): for params whose other fields are valid, an
explicitly provided slippage is accepted iff it lies in [0, 1], and
any slippage outside [0, 1] is rejected with `InvalidQuoteParams`. -/
theorem C3_amended (kc : Int → Bool) (p : QuoteParams) (s : ℚ)
    (hbase : validateQuoteParams kc { p with slippage := none } = .ok ()) :
    (validateQuoteParams kc { p with slippage := some s } = .ok () ↔ 0 ≤ s ∧ s ≤ 1) ∧
    (¬ (0 ≤ s ∧ s ≤ 1) →
      validateQuoteParams kc { p with slippage := some s } =
        .error (.invalidQuoteParams "slippage" "Must be between 0 and 1")) := by
  have h := validateQuoteParams_slippage kc p s hbase
  rw [h]
  by_cases hc : s < 0 ∨ s > 1
  · rw [if_pos hc]
    constructor
    · constructor
      · intro he
        exact absurd he (by simp)
      · intro hin
        rcases hc with hc2 | hc2
        · exact absurd hin.1 (not_le.mpr hc2)
        · exact absurd hin.2 (not_le.mpr hc2)
    · intro _
      rfl
  · rw [if_neg hc]
    push_neg at hc
    constructor
    · exact iff_of_true rfl hc
    · intro hout
      exact absurd hc hout

/-- C3 witness: the amended theorem applied at slippage 0.01. -/
theorem C3_amended_witness :
    validateQuoteParams c3KnownChains { c3ParamsNoSlip with slippage := some (1 / 100) } = .ok () :=
  ((C3_amended c3KnownChains c3ParamsNoSlip (1 / 100) (by rfl)).1).2 (by norm_num)

/-! Claim C7: snapshot arrival detection. -/

lemma detectLoop_ok_inv (prev : Int) (exp : Option Int) :
    ∀ (polls : List (Option Int)) (last : Int) (r : UsdcArrivalResult),
      detectLoop prev exp polls last = .ok r →
      r.previousBalance = prev ∧ r.amount = r.currentBalance - prev ∧
        qualifiesPoll prev exp r.currentBalance ∧ (some r.currentBalance) ∈ polls := by
  intro polls
  induction polls with
  | nil =>
    intro last r h
    exact absurd h (by simp [detectLoop])
  | cons poll rest ih =>
    intro last r h
    match poll with
    | none =>
      obtain ⟨h1, h2, h3, h4⟩ := ih last r h
      exact ⟨h1, h2, h3, List.mem_cons_of_mem _ h4⟩
    | some current =>
      simp only [detectLoop] at h
      by_cases hd : current - prev > 0
      · rw [if_pos hd] at h
        match exp with
        | some expected =>
          dsimp only at h
          by_cases hm : current - prev < minExpectedOf expected
          · rw [if_pos hm] at h
            obtain ⟨h1, h2, h3, h4⟩ := ih current r h
            exact ⟨h1, h2, h3, List.mem_cons_of_mem _ h4⟩
          · rw [if_neg hm] at h
            cases h
            refine ⟨rfl, rfl, ⟨hd, ?_⟩, List.mem_cons_self _ _⟩
            intro e he
            cases he
            exact not_lt.mp hm
        | none =>
          dsimp only at h
          cases h
          refine ⟨rfl, rfl, ⟨hd, ?_⟩, List.mem_cons_self _ _⟩
          intro e he
          cases he
      · rw [if_neg hd] at h
        obtain ⟨h1, h2, h3, h4⟩ := ih current r h
        exact ⟨h1, h2, h3, List.mem_cons_of_mem _ h4⟩

lemma detectLoop_error_inv (prev : Int) (exp : Option Int) :
    ∀ (polls : List (Option Int)) (last lastOut : Int),
      detectLoop prev exp polls last = .error lastOut →
      (∀ b, (some b) ∈ polls → ¬ qualifiesPoll prev exp b) ∧
        lastOut = lastObserved polls last := by
  intro polls
  induction polls with
  | nil =>
    intro last lastOut h
    simp only [detectLoop] at h
    cases h
    refine ⟨?_, rfl⟩
    intro b hb
    exact absurd hb (by simp)
  | cons poll rest ih =>
    intro last lastOut h
    match poll with
    | none =>
      obtain ⟨h1, h2⟩ := ih last lastOut h
      refine ⟨?_, h2⟩
      intro b hb
      rcases List.mem_cons.mp hb with hb | hb
      · cases hb
      · exact h1 b hb
    | some current =>
      simp only [detectLoop] at h
      by_cases hd : current - prev > 0
      · rw [if_pos hd] at h
        match exp with
        | some expected =>
          dsimp only at h
          by_cases hm : current - prev < minExpectedOf expected
          · rw [if_pos hm] at h
            obtain ⟨h1, h2⟩ := ih current lastOut h
            refine ⟨?_, h2⟩
            intro b hb
            rcases List.mem_cons.mp hb with hb | hb
            · cases hb
              intro hq
              exact absurd (hq.2 expected rfl) (not_le.mpr hm)
            · exact h1 b hb
          · rw [if_neg hm] at h
            cases h
        | none =>
          dsimp only at h
          cases h
      · rw [if_neg hd] at h
        obtain ⟨h1, h2⟩ := ih current lastOut h
        refine ⟨?_, h2⟩
        intro b hb
        rcases List.mem_cons.mp hb with hb | hb
        · cases hb
          intro hq
          exact absurd hq.1 hd
        · exact h1 b hb

lemma detectLoop_skip_none (prev : Int) (exp : Option Int) :
    ∀ (pre post : List (Option Int)) (last : Int),
      detectLoop prev exp (pre ++ none :: post) last = detectLoop prev exp (pre ++ post) last := by
  intro pre
  induction pre with
  | nil => intro post last; rfl
  | cons poll rest ih =>
    intro post last
    match poll with
    | none =>
      show detectLoop prev exp (rest ++ none :: post) last = detectLoop prev exp (rest ++ post) last
      exact ih post last
    | some current =>
      show detectLoop prev exp (some current :: (rest ++ none :: post)) last = _
      simp only [List.cons_append, detectLoop]
      by_cases hd : current - prev > 0
      · rw [if_pos hd, if_pos hd]
        match exp with
        | some expected =>
          dsimp only
          by_cases hm : current - prev < minExpectedOf expected
          · rw [if_pos hm, if_pos hm]
            exact ih post current
          · rw [if_neg hm, if_neg hm]
        | none => rfl
      · rw [if_neg hd, if_neg hd]
        exact ih post current

/-- C7 (amended): `detectUsdcArrivalFromSnapshot` returns a detection
result iff some successful poll shows a delta that is both positive
and, when an expected amount is given, at least
`⌊expectedAmount·99/100⌋`; the returned amount is the balance delta;
poll failures never abort the loop; and exhausting the poll budget
raises the timeout error carrying the last observed balance. -/
theorem C7_amended :
    (∀ (prev : Int) (exp : Option Int) (polls : List (Option Int)) (r : UsdcArrivalResult),
      detectUsdcArrivalFromSnapshot prev exp polls = .ok r →
      r.previousBalance = prev ∧ r.amount = r.currentBalance - prev ∧
        qualifiesPoll prev exp r.currentBalance ∧ (some r.currentBalance) ∈ polls) ∧
    (∀ (prev : Int) (exp : Option Int) (polls : List (Option Int)) (lastOut : Int),
      detectUsdcArrivalFromSnapshot prev exp polls = .error lastOut →
      (∀ b, (some b) ∈ polls → ¬ qualifiesPoll prev exp b) ∧
        lastOut = lastObserved polls prev) ∧
    (∀ (prev : Int) (exp : Option Int) (pre post : List (Option Int)),
      detectUsdcArrivalFromSnapshot prev exp (pre ++ none :: post) =
        detectUsdcArrivalFromSnapshot prev exp (pre ++ post)) := by
  refine ⟨?_, ?_, ?_⟩
  · intro prev exp polls r h
    exact detectLoop_ok_inv prev exp polls prev r h
  · intro prev exp polls lastOut h
    exact detectLoop_error_inv prev exp polls prev lastOut h
  · intro prev exp pre post
    exact detectLoop_skip_none prev exp pre post prev

/-- C7 counterexample: with `expectedAmount = 1` a zero delta satisfies
the claimed tolerance condition `delta ≥ ⌊expectedAmount·99/100⌋ = 0`,
yet the detector does not report it — the code additionally requires
a strictly positive delta, so the run times out instead. -/
theorem C7_counterexample :
    detectUsdcArrivalFromSnapshot 1000000 (some 1) [some 1000000] = .error 1000000 ∧
    (1000000 : Int) - 1000000 ≥ minExpectedOf 1 := by
  refine ⟨rfl, ?_⟩
  decide

/-! Claims C6 and C9: the quote cache windows of `getQuote`. -/

/-- The slippage normalization does not change the cache key. -/
lemma getKey_normalize (p : QuoteParams) :
    getKey { p with slippage := some (p.slippage.getD DEFAULT_SLIPPAGE) } = getKey p := rfl

/-- Nor does it change the HTTP error mapping. -/
lemma fetchQuoteFromApi_normalize (p : QuoteParams) (s : Option ℚ) (o : FetchOutcome) :
    fetchQuoteFromApi { p with slippage := s } o = fetchQuoteFromApi p o := by
  cases o <;> rfl

lemma getStale_some (cache : QuoteCache) (p' : QuoteParams) (now : Int) (entry : QuoteCacheEntry)
    (hl : cache.lookup (getKey p') = some entry) (he : entry.quote.expiresAt > now) :
    QuoteCache.getStale cache p' now = (some (entry.quote, entry.timestamp), cache) := by
  unfold QuoteCache.getStale
  dsimp only
  rw [hl]
  dsimp only
  rw [if_neg (not_le.mpr he)]

lemma getStale_expired (cache : QuoteCache) (p' : QuoteParams) (now : Int) (entry : QuoteCacheEntry)
    (hl : cache.lookup (getKey p') = some entry) (he : entry.quote.expiresAt ≤ now) :
    QuoteCache.getStale cache p' now =
      (none, cache.filter (fun e => !(e.1 == getKey p'))) := by
  unfold QuoteCache.getStale
  dsimp only
  rw [hl]
  dsimp only
  rw [if_pos he]

lemma getStale_none (cache : QuoteCache) (p' : QuoteParams) (now : Int)
    (hl : cache.lookup (getKey p') = none) :
    QuoteCache.getStale cache p' now = (none, cache) := by
  unfold QuoteCache.getStale
  dsimp only
  rw [hl]

/-- Deleting a key from the cache makes its lookup miss. -/
lemma lookup_erase_self (c : QuoteCache) (k : QuoteKey) :
    (c.filter (fun e => !(e.1 == k))).lookup k = none := by
  induction c with
  | nil => rfl
  | cons hd tl ih =>
    obtain ⟨k', v⟩ := hd
    by_cases h : k = k'
    · subst h
      simp only [List.filter_cons]
      rw [if_neg (by simp)]
      exact ih
    · simp only [List.filter_cons]
      rw [if_pos (by simp [Ne.symm h])]
      simp only [List.lookup, show (k == k') = false from by simp [h]]
      exact ih

/-- Behavior of the fetch-and-fallback tail when the aggregator call
fails. -/
lemma fetchPath_error_eq (p' : QuoteParams) (ad : Bool) (cache : QuoteCache) (now : Int)
    (outcome : FetchOutcome) (e : SdkError)
    (hfe : fetchQuoteFromApi p' outcome = .error e) :
    getQuote.getQuoteFetchPath p' ad cache now outcome =
      match QuoteCache.getStale cache p' now with
      | (some (q, _), c) => ⟨.ok q, c, true⟩
      | (none, c) => ⟨.error (quoteErrorMapped e), c, true⟩ := by
  unfold getQuote.getQuoteFetchPath quoteErrorMapped
  rw [hfe]
  rcases hst : QuoteCache.getStale cache p' now with ⟨sq, c⟩
  match sq with
  | some (q, ts) => rfl
  | none =>
    dsimp only
    split_ifs <;> rfl

/-- The fetch path always marks the aggregator as called. -/
lemma fetchPath_usedFetch (p' : QuoteParams) (ad : Bool) (cache : QuoteCache) (now : Int)
    (outcome : FetchOutcome) :
    (getQuote.getQuoteFetchPath p' ad cache now outcome).usedFetch = true := by
  unfold getQuote.getQuoteFetchPath
  rcases hf : fetchQuoteFromApi p' outcome with e | resp
  · rcases hst : QuoteCache.getStale cache p' now with ⟨sq, c⟩
    match sq with
    | some (q, ts) => rfl
    | none =>
      dsimp only
      split_ifs <;> rfl
  · rfl

/-- Shape of `getQuote` when validation passes and the cache holds an
entry for the key: fresh hit exactly inside both windows, otherwise
the fetch path runs. -/
lemma getQuote_cache_cases (kc : Int → Bool) (p : QuoteParams) (ad : Bool) (cache : QuoteCache)
    (now : Int) (outcome : FetchOutcome) (entry : QuoteCacheEntry)
    (hval : validateQuoteParams kc p = .ok ())
    (hl : cache.lookup (getKey p) = some entry) :
    getQuote kc p ad cache now outcome =
      if now - entry.timestamp > QUOTE_CACHE_TTL_MS ∨ ¬ entry.quote.expiresAt > now then
        getQuote.getQuoteFetchPath { p with slippage := some (p.slippage.getD DEFAULT_SLIPPAGE) }
          ad cache now outcome
      else ⟨.ok entry.quote, cache, false⟩ := by
  unfold getQuote
  rw [hval]
  dsimp only
  unfold QuoteCache.get
  rw [getKey_normalize, hl]
  dsimp only
  by_cases ht : now - entry.timestamp > QUOTE_CACHE_TTL_MS
  · rw [if_pos ht, if_pos (Or.inl ht)]
  · rw [if_neg ht]
    dsimp only
    by_cases he : entry.quote.expiresAt > now
    · rw [if_pos he, if_neg (by push_neg; exact ⟨not_lt.mp ht, he⟩)]
    · rw [if_neg he, if_pos (Or.inr he)]

/-- Shape of `getQuote` when validation passes and the cache has no
entry for the key. -/
lemma getQuote_cache_none (kc : Int → Bool) (p : QuoteParams) (ad : Bool) (cache : QuoteCache)
    (now : Int) (outcome : FetchOutcome)
    (hval : validateQuoteParams kc p = .ok ())
    (hl : cache.lookup (getKey p) = none) :
    getQuote kc p ad cache now outcome =
      getQuote.getQuoteFetchPath { p with slippage := some (p.slippage.getD DEFAULT_SLIPPAGE) }
        ad cache now outcome := by
  unfold getQuote
  rw [hval]
  dsimp only
  unfold QuoteCache.get
  rw [getKey_normalize, hl]

/-- C6: on an aggregator error, `getQuote` returns the cached quote for
the same normalized params iff a cache entry exists whose
`quote.expiresAt > now`; an entry with `expiresAt ≤ now` is deleted
and the typed error is re-raised instead (`NoRouteFound` for 404 or a
body containing the no-quotes marker, `NetworkError` for other non-OK
responses, `QuoteFetchFailed` otherwise, with already-typed errors
re-raised as-is). -/
theorem C6_claim :
    (∀ (kc : Int → Bool) (p : QuoteParams) (ad : Bool) (cache : QuoteCache) (now : Int)
       (outcome : FetchOutcome) (e : SdkError) (entry : QuoteCacheEntry),
      validateQuoteParams kc p = .ok () →
      fetchQuoteFromApi p outcome = .error e →
      cache.lookup (getKey p) = some entry →
      entry.quote.expiresAt > now →
      (getQuote kc p ad cache now outcome).result = .ok entry.quote) ∧
    (∀ (kc : Int → Bool) (p : QuoteParams) (ad : Bool) (cache : QuoteCache) (now : Int)
       (outcome : FetchOutcome) (e : SdkError) (entry : QuoteCacheEntry),
      validateQuoteParams kc p = .ok () →
      fetchQuoteFromApi p outcome = .error e →
      cache.lookup (getKey p) = some entry →
      entry.quote.expiresAt ≤ now →
      (getQuote kc p ad cache now outcome).result = .error (quoteErrorMapped e) ∧
      ((getQuote kc p ad cache now outcome).cache.lookup (getKey p)) = none) ∧
    (∀ (kc : Int → Bool) (p : QuoteParams) (ad : Bool) (cache : QuoteCache) (now : Int)
       (outcome : FetchOutcome) (e : SdkError),
      validateQuoteParams kc p = .ok () →
      fetchQuoteFromApi p outcome = .error e →
      cache.lookup (getKey p) = none →
      (getQuote kc p ad cache now outcome).result = .error (quoteErrorMapped e)) ∧
    (∀ (p : QuoteParams) (status : Int) (body : String),
      (status = 404 ∨ containsSubstr body "No available quotes" = true →
        ∃ m, fetchQuoteFromApi p (.httpError status body) = .error (.noRouteFound m)) ∧
      (status ≠ 404 → containsSubstr body "No available quotes" = false →
        ∃ m, fetchQuoteFromApi p (.httpError status body) = .error (.networkError m))) := by
  refine ⟨?_, ?_, ?_, ?_⟩
  · intro kc p ad cache now outcome e entry hval hfe hl he
    have hfe' : fetchQuoteFromApi { p with slippage := some (p.slippage.getD DEFAULT_SLIPPAGE) }
        outcome = .error e := by rw [fetchQuoteFromApi_normalize]; exact hfe
    rw [getQuote_cache_cases kc p ad cache now outcome entry hval hl]
    by_cases hw : now - entry.timestamp > QUOTE_CACHE_TTL_MS ∨ ¬ entry.quote.expiresAt > now
    · rw [if_pos hw,
        fetchPath_error_eq _ ad cache now outcome e hfe',
        getStale_some cache _ now entry (by rw [getKey_normalize]; exact hl) he]
    · rw [if_neg hw]
  · intro kc p ad cache now outcome e entry hval hfe hl he
    have hfe' : fetchQuoteFromApi { p with slippage := some (p.slippage.getD DEFAULT_SLIPPAGE) }
        outcome = .error e := by rw [fetchQuoteFromApi_normalize]; exact hfe
    rw [getQuote_cache_cases kc p ad cache now outcome entry hval hl,
      if_pos (Or.inr (not_lt.mpr he)),
      fetchPath_error_eq _ ad cache now outcome e hfe',
      getStale_expired cache _ now entry (by rw [getKey_normalize]; exact hl) he]
    exact ⟨rfl, by rw [getKey_normalize]; exact lookup_erase_self cache (getKey p)⟩
  · intro kc p ad cache now outcome e hval hfe hl
    have hfe' : fetchQuoteFromApi { p with slippage := some (p.slippage.getD DEFAULT_SLIPPAGE) }
        outcome = .error e := by rw [fetchQuoteFromApi_normalize]; exact hfe
    rw [getQuote_cache_none kc p ad cache now outcome hval hl,
      fetchPath_error_eq _ ad cache now outcome e hfe',
      getStale_none cache _ now (by rw [getKey_normalize]; exact hl)]
  · intro p status body
    constructor
    · intro h
      refine ⟨"No bridge route found from chain " ++ toString p.fromChainId ++
        " to chain " ++ toString p.toChainId, ?_⟩
      unfold fetchQuoteFromApi
      dsimp only
      rw [if_pos (by
        rcases h with h | h
        · exact Or.inl h
        · exact Or.inr h)]
    · intro h404 hbody
      refine ⟨"LI.FI API error: " ++ toString status, ?_⟩
      unfold fetchQuoteFromApi
      dsimp only
      rw [if_neg (by
        rintro (h | h)
        · exact h404 h
        · rw [hbody] at h
          exact Bool.false_ne_true h)]

/-- C9: with the 30 s TTL (`QUOTE_CACHE_TTL_MS`) and the 60 s quote
expiry stamped by the mapper, a cache entry is served as a fresh hit
iff it is at most 30 s old and not yet expired; between the TTL and
the expiry the fresh path misses, the aggregator is called, and on an
aggregator error the entry is still returned via the stale-fallback
path. -/
theorem C9_claim :
    QUOTE_CACHE_TTL_MS = 30000 ∧
    (∀ (resp : LifiQuoteResponse) (p : QuoteParams) (ad : Bool) (now : Int),
      (mapLifiQuoteToQuote resp p ad now).expiresAt = now + 60000) ∧
    (∀ (kc : Int → Bool) (p : QuoteParams) (ad : Bool) (cache : QuoteCache) (now : Int)
       (outcome : FetchOutcome) (entry : QuoteCacheEntry),
      validateQuoteParams kc p = .ok () →
      cache.lookup (getKey p) = some entry →
      ((getQuote kc p ad cache now outcome).usedFetch = false ↔
        now - entry.timestamp ≤ QUOTE_CACHE_TTL_MS ∧ entry.quote.expiresAt > now)) ∧
    (∀ (kc : Int → Bool) (p : QuoteParams) (ad : Bool) (cache : QuoteCache) (now : Int)
       (outcome : FetchOutcome) (entry : QuoteCacheEntry),
      validateQuoteParams kc p = .ok () →
      cache.lookup (getKey p) = some entry →
      now - entry.timestamp ≤ QUOTE_CACHE_TTL_MS →
      entry.quote.expiresAt > now →
      (getQuote kc p ad cache now outcome).result = .ok entry.quote) ∧
    (∀ (kc : Int → Bool) (p : QuoteParams) (ad : Bool) (cache : QuoteCache) (now : Int)
       (outcome : FetchOutcome) (e : SdkError) (entry : QuoteCacheEntry),
      validateQuoteParams kc p = .ok () →
      cache.lookup (getKey p) = some entry →
      now - entry.timestamp > QUOTE_CACHE_TTL_MS →
      entry.quote.expiresAt > now →
      (getQuote kc p ad cache now outcome).usedFetch = true ∧
      (fetchQuoteFromApi p outcome = .error e →
        (getQuote kc p ad cache now outcome).result = .ok entry.quote)) := by
  refine ⟨rfl, fun _ _ _ _ => rfl, ?_, ?_, ?_⟩
  · intro kc p ad cache now outcome entry hval hl
    rw [getQuote_cache_cases kc p ad cache now outcome entry hval hl]
    by_cases hw : now - entry.timestamp > QUOTE_CACHE_TTL_MS ∨ ¬ entry.quote.expiresAt > now
    · rw [if_pos hw]
      constructor
      · intro hf
        exact absurd (fetchPath_usedFetch _ ad cache now outcome) (by rw [hf]; exact Bool.false_ne_true)
      · intro hin
        rcases hw with hw | hw
        · exact absurd hin.1 (not_le.mpr hw)
        · exact absurd hin.2 hw
    · rw [if_neg hw]
      push_neg at hw
      exact iff_of_true rfl ⟨hw.1, hw.2⟩
  · intro kc p ad cache now outcome entry hval hl ht he
    rw [getQuote_cache_cases kc p ad cache now outcome entry hval hl,
      if_neg (by push_neg; exact ⟨ht, he⟩)]
  · intro kc p ad cache now outcome e entry hval hl ht he
    rw [getQuote_cache_cases kc p ad cache now outcome entry hval hl, if_pos (Or.inl ht)]
    refine ⟨fetchPath_usedFetch _ ad cache now outcome, ?_⟩
    intro hfe
    have hfe' : fetchQuoteFromApi { p with slippage := some (p.slippage.getD DEFAULT_SLIPPAGE) }
        outcome = .error e := by rw [fetchQuoteFromApi_normalize]; exact hfe
    rw [fetchPath_error_eq _ ad cache now outcome e hfe',
      getStale_some cache _ now entry (by rw [getKey_normalize]; exact hl) he]

/-- C6 witness: the stale-fallback conjunct applied 40 s after caching
(the entry is past the TTL but not expired) with the aggregator
answering HTTP 500. -/
theorem C6_claim_witness :
    (getQuote wChains w6Params true w6Cache 1000040000 (.httpError 500 "internal")).result =
      .ok w6Quote :=
  C6_claim.1 wChains w6Params true w6Cache 1000040000 (.httpError 500 "internal")
    (.networkError ("LI.FI API error: " ++ toString (500 : Int)))
    ⟨w6Quote, 1000000000⟩ (by rfl) (by rfl) (by rfl) (by decide)

/-- C9 witness: the between-windows conjunct applied at the same
snapshot — the fresh path misses and the fetch is attempted. -/
theorem C9_claim_witness :
    (getQuote wChains w6Params true w6Cache 1000040000 (.httpError 500 "internal")).usedFetch =
      true :=
  (C9_claim.2.2.2.2 wChains w6Params true w6Cache 1000040000 (.httpError 500 "internal")
    (.networkError ("LI.FI API error: " ++ toString (500 : Int)))
    ⟨w6Quote, 1000000000⟩ (by rfl) (by rfl) (by decide) (by decide)).1

/-- C7 witness: the amended theorem applied at the concrete scenario of
the spec (previous 1000000, expected 10000000, arrival 10900000). -/
theorem C7_amended_witness :
    qualifiesPoll 1000000 (some 10000000) 10900000 ∧
    (some (10900000 : Int)) ∈
      [some (1000000 : Int), some 1000000, some 10900000] := by
  have h := (C7_amended.1 1000000 (some 10000000)
    [some 1000000, some 1000000, some 10900000]
    ⟨9900000, 1000000, 10900000⟩ (by rfl))
  exact ⟨h.2.2.1, h.2.2.2⟩

/-! Claims C5 and C10: the execution registry. -/

lemma insertByCreatedAt_length (x : String × ExecutionState) (l : Store) :
    (insertByCreatedAt x l).length = l.length + 1 := by
  induction l with
  | nil => rfl
  | cons y ys ih =>
    unfold insertByCreatedAt
    split_ifs
    · rfl
    · simp only [List.length_cons, ih]

lemma sortByCreatedAt_length (l : Store) : (sortByCreatedAt l).length = l.length := by
  induction l with
  | nil => rfl
  | cons y ys ih =>
    show (insertByCreatedAt y (sortByCreatedAt ys)).length = ys.length + 1
    rw [insertByCreatedAt_length, ih]

lemma mem_of_mem_insertByCreatedAt {y x : String × ExecutionState} {l : Store}
    (h : y ∈ insertByCreatedAt x l) : y = x ∨ y ∈ l := by
  induction l with
  | nil => simpa [insertByCreatedAt] using h
  | cons z zs ih =>
    unfold insertByCreatedAt at h
    split_ifs at h
    · rcases List.mem_cons.mp h with h | h
      · exact Or.inl h
      · exact Or.inr h
    · rcases List.mem_cons.mp h with h | h
      · exact Or.inr (List.mem_cons.mpr (Or.inl h))
      · rcases ih h with h | h
        · exact Or.inl h
        · exact Or.inr (List.mem_cons.mpr (Or.inr h))

lemma mem_of_mem_sortByCreatedAt {y : String × ExecutionState} {l : Store}
    (h : y ∈ sortByCreatedAt l) : y ∈ l := by
  induction l with
  | nil => simp [sortByCreatedAt] at h
  | cons z zs ih =>
    have h' : y ∈ insertByCreatedAt z (sortByCreatedAt zs) := h
    rcases mem_of_mem_insertByCreatedAt h' with h2 | h2
    · rw [h2]
      exact List.mem_cons_self _ _
    · exact List.mem_cons.mpr (Or.inr (ih h2))

lemma length_filter_lt_of_pred_false {p : (String × ExecutionState) → Bool} {l : Store}
    {x : String × ExecutionState} (hx : x ∈ l) (hpx : p x = false) :
    (l.filter p).length < l.length := by
  induction l with
  | nil => cases hx
  | cons z zs ih =>
    rcases List.mem_cons.mp hx with h | h
    · subst h
      rw [List.filter_cons, if_neg (by simp [hpx])]
      exact Nat.lt_succ_of_le (List.length_filter_le _ _)
    · rw [List.filter_cons]
      split_ifs
      · simpa using Nat.succ_lt_succ (ih h)
      · exact Nat.lt_succ_of_lt (ih h)

lemma contains_of_mem {a : String} {l : List String} (h : a ∈ l) : l.contains a = true := by
  induction l with
  | nil => cases h
  | cons b bs ih =>
    rcases List.mem_cons.mp h with h | h
    · subst h
      simp [List.contains_cons]
    · simp only [List.contains_cons, Bool.or_eq_true]
      exact Or.inr (ih h)

lemma cleanup_length_le_99 (now : Int) (m : Store) (hm : m.length ≤ maxExecutions) :
    (ExecutionStore.cleanup now m).length ≤ maxExecutions - 1 := by
  unfold ExecutionStore.cleanup
  dsimp only
  have hlen1 : (m.filter (cleanupKeep now)).length ≤ m.length := List.length_filter_le _ _
  by_cases hge : (m.filter (cleanupKeep now)).length ≥ maxExecutions
  · rw [if_pos hge]
    obtain ⟨z, zs, hz⟩ : ∃ z zs, sortByCreatedAt (m.filter (cleanupKeep now)) = z :: zs := by
      cases hs : sortByCreatedAt (m.filter (cleanupKeep now)) with
      | nil =>
        exfalso
        have hl := sortByCreatedAt_length (m.filter (cleanupKeep now))
        rw [hs] at hl
        simp only [List.length_nil] at hl
        have : (0 : ℕ) ≥ maxExecutions := hl ▸ hge
        norm_num [maxExecutions] at this
      | cons z zs => exact ⟨z, zs, rfl⟩
    have hzmem : z ∈ sortByCreatedAt (m.filter (cleanupKeep now)) := by
      rw [hz]
      exact List.mem_cons_self _ _
    have hzm1 : z ∈ m.filter (cleanupKeep now) := mem_of_mem_sortByCreatedAt hzmem
    have hztake : z ∈ (sortByCreatedAt (m.filter (cleanupKeep now))).take (maxExecutions / 4) := by
      rw [hz, show maxExecutions / 4 = 25 from rfl, List.take_succ_cons]
      exact List.mem_cons_self _ _
    have hzrm : ((((sortByCreatedAt (m.filter (cleanupKeep now))).take
        (maxExecutions / 4)).map (fun e => e.1)).contains z.1) = true := by
      apply contains_of_mem
      rw [List.mem_map]
      exact ⟨z, hztake, rfl⟩
    have hfalse : (fun e : String × ExecutionState =>
        !((((sortByCreatedAt (m.filter (cleanupKeep now))).take
          (maxExecutions / 4)).map (fun e => e.1)).contains e.1)) z = false := by
      show (!((((sortByCreatedAt (m.filter (cleanupKeep now))).take
        (maxExecutions / 4)).map (fun e => e.1)).contains z.1)) = false
      rw [hzrm]
      rfl
    have hlt := @length_filter_lt_of_pred_false
      (fun e : String × ExecutionState =>
        !((((sortByCreatedAt (m.filter (cleanupKeep now))).take
          (maxExecutions / 4)).map (fun e => e.1)).contains e.1))
      (m.filter (cleanupKeep now)) z hzm1 hfalse
    omega
  · rw [if_neg hge]
    omega

lemma storeSet_length_le (id : String) (st : ExecutionState) (m : Store) :
    (storeSet id st m).length ≤ m.length + 1 := by
  unfold storeSet
  split_ifs
  · rw [List.length_map]
    omega
  · rw [List.length_append]
    simp

lemma update_length (now : Int) (id : String) (u : ExecUpdate) (m : Store) :
    (ExecutionStore.update now id u m).length = m.length := by
  unfold ExecutionStore.update
  cases h : m.lookup id with
  | none => rfl
  | some st =>
    dsimp only
    unfold storeSet
    rw [if_pos (by rw [h]; rfl)]
    exact List.length_map _ _

lemma updateStep_length (now : Int) (id stepId : String) (u : StepUpdate) (m : Store) :
    (ExecutionStore.updateStep now id stepId u m).length = m.length := by
  unfold ExecutionStore.updateStep
  cases h : m.lookup id with
  | none => rfl
  | some st =>
    dsimp only
    split_ifs
    · exact update_length now id _ m
    · rfl

lemma create_length (now : Int) (p : CreateParams) (m : Store) (hm : m.length ≤ maxExecutions) :
    (ExecutionStore.create now p m).length ≤ maxExecutions := by
  unfold ExecutionStore.create
  dsimp only
  by_cases hge : m.length ≥ maxExecutions
  · rw [if_pos hge]
    have h1 := cleanup_length_le_99 now m hm
    refine le_trans (storeSet_length_le _ _ _) ?_
    simp only [maxExecutions] at h1 ⊢
    omega
  · rw [if_neg hge]
    refine le_trans (storeSet_length_le _ _ _) ?_
    simp only [maxExecutions] at hge hm ⊢
    omega

/-- C5 (amended): the registry never exceeds 100 entries over any
sequence of create / update / updateStep operations; on insertion at
capacity the first eviction pass removes exactly the terminal entries
last touched (by `updatedAt`, not `createdAt`) more than an hour ago;
and eviction never invents entries. -/
theorem C5_amended :
    (∀ (ops : List StoreOp), (applyOps ops []).length ≤ maxExecutions) ∧
    (∀ (now : Int) (m : Store) (id : String) (s : ExecutionState),
      (id, s) ∈ m → isTerminal s = true → now - s.updatedAt > ONE_HOUR_MS →
      (id, s) ∉ ExecutionStore.cleanup now m) ∧
    (∀ (now : Int) (m : Store) (e : String × ExecutionState),
      e ∈ ExecutionStore.cleanup now m → e ∈ m) := by
  refine ⟨?_, ?_, ?_⟩
  · have key : ∀ (ops : List StoreOp) (m : Store), m.length ≤ maxExecutions →
        (applyOps ops m).length ≤ maxExecutions := by
      intro ops
      induction ops with
      | nil => intro m hm; exact hm
      | cons op rest ih =>
        intro m hm
        show (applyOps rest (applyOp m op)).length ≤ maxExecutions
        apply ih
        match op with
        | .create now p => exact create_length now p m hm
        | .update now id u => exact (update_length now id u m) ▸ hm
        | .updateStep now id stepId u => exact (updateStep_length now id stepId u m) ▸ hm
    intro ops
    exact key ops [] (by norm_num)
  · intro now m id s hmem hterm hstale hcontra
    have hpred : cleanupKeep now (id, s) = false := by
      simp [cleanupKeep, hterm, hstale]
    unfold ExecutionStore.cleanup at hcontra
    dsimp only at hcontra
    by_cases hge : (m.filter (cleanupKeep now)).length ≥ maxExecutions
    · rw [if_pos hge] at hcontra
      have h1 : (id, s) ∈ m.filter (cleanupKeep now) := (List.mem_filter.mp hcontra).1
      have h2 := (List.mem_filter.mp h1).2
      rw [hpred] at h2
      exact Bool.false_ne_true h2
    · rw [if_neg hge] at hcontra
      have h2 := (List.mem_filter.mp hcontra).2
      rw [hpred] at h2
      exact Bool.false_ne_true h2
  · intro now m e he
    unfold ExecutionStore.cleanup at he
    dsimp only at he
    by_cases hge : (m.filter (cleanupKeep now)).length ≥ maxExecutions
    · rw [if_pos hge] at he
      exact (List.mem_filter.mp (List.mem_filter.mp he).1).1
    · rw [if_neg hge] at he
      exact (List.mem_filter.mp he).1

/-- C5 counterexample: at capacity, an insertion keeps a terminal entry
whose `createdAt` is more than an hour old, because the first eviction
pass judges staleness by `updatedAt` — contradicting the claimed
eviction of terminal entries older than one hour by `createdAt`. -/
theorem C5_counterexample :
    c5Store.length = maxExecutions ∧
    isTerminal tEntry = true ∧
    7200000 - tEntry.createdAt > ONE_HOUR_MS ∧
    ("t", tEntry) ∈ ExecutionStore.create 7200000 c5NewParams c5Store := by
  refine ⟨by decide, rfl, by decide, by decide⟩

/-- C5 witness: the amended eviction conjunct applied to a singleton
registry holding one stale terminal entry. -/
theorem C5_amended_witness :
    ("x", c5StaleEntry) ∉ ExecutionStore.cleanup 7200000 [("x", c5StaleEntry)] :=
  C5_amended.2.1 7200000 [("x", c5StaleEntry)] "x" c5StaleEntry
    (List.mem_singleton.mpr rfl) (by decide) (by decide)

lemma lookup_filter_removed (rm : List String) (id : String) (hid : rm.contains id = true) :
    ∀ (m1 : Store), ((m1.filter (fun e => !(rm.contains e.1))).lookup id) = none := by
  intro m1
  induction m1 with
  | nil => rfl
  | cons hd tl ih =>
    obtain ⟨k, v⟩ := hd
    rw [List.filter_cons]
    by_cases hk : rm.contains k = true
    · rw [if_neg (by
        show ¬((!(rm.contains (k, v).1)) = true)
        rw [show (k, v).1 = k from rfl, hk]
        decide)]
      exact ih
    · have hkf : rm.contains k = false := Bool.eq_false_iff.mpr hk
      rw [if_pos (by
        show (!(rm.contains (k, v).1)) = true
        rw [show (k, v).1 = k from rfl, hkf]
        rfl)]
      have hkid : (id == k) = false := by
        cases hbe : (id == k) with
        | false => rfl
        | true =>
          exfalso
          have hk2 : id = k := by simpa using hbe
          rw [← hk2, hid] at hkf
          exact absurd hkf (by decide)
      simp only [List.lookup, hkid]
      exact ih

lemma lookup_map_replace_other (m : Store) (nid : String) (st : ExecutionState) (id : String)
    (h : id ≠ nid) :
    ((m.map (fun e => if e.1 == nid then (nid, st) else e)).lookup id) = m.lookup id := by
  induction m with
  | nil => rfl
  | cons hd tl ih =>
    obtain ⟨k, v⟩ := hd
    rw [List.map_cons]
    by_cases hk : (k == nid) = true
    · rw [if_pos (show (((k, v).1 == nid) = true) from hk)]
      have h1 : (id == nid) = false := by simp [h]
      have h2 : (id == k) = false := by
        have hk2 : k = nid := by simpa using hk
        simp [hk2, h]
      simp only [List.lookup, h1, h2]
      exact ih
    · rw [if_neg (show ¬(((k, v).1 == nid) = true) from hk)]
      simp only [List.lookup]
      cases hkid : (id == k) with
      | true => rfl
      | false => exact ih

lemma lookup_append_single_other (m : Store) (nid : String) (st : ExecutionState) (id : String)
    (h : id ≠ nid) : ((m ++ [(nid, st)]).lookup id) = m.lookup id := by
  induction m with
  | nil =>
    simp only [List.nil_append, List.lookup]
    rw [show (id == nid) = false from by simp [h]]
  | cons hd tl ih =>
    obtain ⟨k, v⟩ := hd
    simp only [List.cons_append, List.lookup]
    cases hkid : (id == k) with
    | true => rfl
    | false => exact ih

lemma lookup_storeSet_other (m : Store) (nid : String) (st : ExecutionState) (id : String)
    (h : id ≠ nid) : ((storeSet nid st m).lookup id) = m.lookup id := by
  unfold storeSet
  split_ifs
  · exact lookup_map_replace_other m nid st id h
  · exact lookup_append_single_other m nid st id h

/-- C10: when an insertion occurs at capacity and the one-hour terminal
pass leaves the registry at capacity, any entry of the oldest quartile
by `createdAt` — including one still `in_progress` — is evicted, and
`getStatus` for the evicted id afterwards returns the `found = false`
default projection (pending status, empty steps, zero progress and
timestamps) rather than an error. -/
theorem C10_claim :
    (∀ (now : Int) (m : Store) (p : CreateParams) (id : String) (s : ExecutionState),
      m.length ≥ maxExecutions →
      (id, s) ∈ m.filter (cleanupKeep now) →
      s.status = ExecStatus.in_progress →
      (m.filter (cleanupKeep now)).length ≥ maxExecutions →
      ((((sortByCreatedAt (m.filter (cleanupKeep now))).take (maxExecutions / 4)).map
          (fun e => e.1)).contains id) = true →
      id ≠ p.executionId →
      ((ExecutionStore.create now p m).lookup id) = none) ∧
    (∀ (m : Store) (id : String),
      m.lookup id = none → ExecutionStore.getStatus id m = emptyStatusResult id) := by
  constructor
  · intro now m p id s hcap hmem hstatus hge hquart hne
    unfold ExecutionStore.create
    dsimp only
    rw [if_pos hcap, lookup_storeSet_other _ _ _ _ hne]
    unfold ExecutionStore.cleanup
    dsimp only
    rw [if_pos hge]
    exact lookup_filter_removed _ id hquart _
  · intro m id h
    unfold ExecutionStore.getStatus
    rw [h]
    rfl

/-- C10 witness: in the full registry fixture, the oldest in-progress
entry `e0` is evicted by the insertion and `getStatus` then reports the
default not-found projection. -/
theorem C10_claim_witness :
    ((ExecutionStore.create 7200000 c5NewParams c5Store).lookup "e0") = none ∧
    ExecutionStore.getStatus "e0" (ExecutionStore.create 7200000 c5NewParams c5Store) =
      emptyStatusResult "e0" := by
  have h1 : ((ExecutionStore.create 7200000 c5NewParams c5Store).lookup "e0") = none :=
    C10_claim.1 7200000 c5Store c5NewParams "e0" (mkRunningEntry 0)
      (by decide) (by decide) rfl (by decide) (by decide) (by decide)
  exact ⟨h1, C10_claim.2 _ "e0" h1⟩

/-! The L1 confirmation monitor (claim C8). -/

lemma extendOnce_foldl_cancelled : ∀ (l : List Int) (s : L1State),
    (l.foldl extendOnce s).cancelled = s.cancelled
  | [], _ => rfl
  | ms :: l, s => (extendOnce_foldl_cancelled l (extendOnce s ms)).trans rfl

lemma extendOnce_foldl_l1W : ∀ (l : List Int) (s : L1State),
    l1W (l.foldl extendOnce s) ≤ l1W s + l.length
  | [], s => by simp
  | ms :: l, s => by
    have ih := extendOnce_foldl_l1W l (extendOnce s ms)
    have h1 : l1W (extendOnce s ms) ≤ l1W s + 1 := by
      unfold l1W extendOnce
      dsimp only
      split_ifs <;> omega
    have h2 : (ms :: l).foldl extendOnce s = l.foldl extendOnce (extendOnce s ms) := rfl
    rw [h2, List.length_cons]
    omega

lemma l1W_applyController (s : L1State) (t : L1Tick) :
    l1W (applyController s t) ≤ l1W s + t.extendCalls.length := by
  simp only [applyController]
  refine le_trans (extendOnce_foldl_l1W _ _) ?_
  have h : l1W (if t.cancelNow then { s with cancelled := true } else s) = l1W s := by
    split_ifs <;> rfl
  rw [h]

lemma applyController_cancelled_false (s : L1State) (t : L1Tick)
    (hs : s.cancelled = false) (hc : t.cancelNow = false) :
    (applyController s t).cancelled = false := by
  simp only [applyController]
  rw [extendOnce_foldl_cancelled, hc]
  rw [if_neg (by decide : ¬((false : Bool) = true))]
  exact hs

lemma applyController_cancelled_true (s : L1State) (t : L1Tick)
    (hc : t.cancelNow = true) : (applyController s t).cancelled = true := by
  simp only [applyController]
  rw [extendOnce_foldl_cancelled, hc]
  rw [if_pos rfl]

lemma l1AfterPoll_cancelled (s : L1State) (t : L1Tick) :
    (monitorLoop.l1AfterPoll s t).cancelled = s.cancelled := by
  unfold monitorLoop.l1AfterPoll
  split_ifs <;> rfl

lemma l1W_afterPoll (s : L1State) (t : L1Tick) :
    l1W (monitorLoop.l1AfterPoll s t) ≤ l1W s := by
  unfold monitorLoop.l1AfterPoll
  split_ifs with h
  · have he : s.timeoutWarningEmitted = false := by
      cases hse : s.timeoutWarningEmitted
      · rfl
      · rw [hse] at h
        exact absurd h.2 (by decide)
    simp [l1W, he]
  · exact le_refl _

lemma monitorLoop_l1W : ∀ (ticks : List L1Tick) (init exp : Int) (s : L1State),
    l1W (monitorLoop init exp s ticks).state ≤ l1W s + countExtendCalls ticks
  | [], init, exp, s => by
    simp [monitorLoop, L1Outcome.state, countExtendCalls]
  | t :: rest, init, exp, s => by
    have hac := l1W_applyController s t
    have hap := l1W_afterPoll (applyController s t) t
    have ih := monitorLoop_l1W rest init exp (monitorLoop.l1AfterPoll (applyController s t) t)
    have hcount : countExtendCalls (t :: rest) =
        t.extendCalls.length + countExtendCalls rest := by
      simp [countExtendCalls]
    simp only [monitorLoop]
    split_ifs with hc hh
    · simp only [L1Outcome.state]
      omega
    · simp only [L1Outcome.state]
      omega
    · cases hp : t.poll with
      | none =>
        dsimp only
        omega
      | some b =>
        dsimp only
        split_ifs with hconf
        · simp only [L1Outcome.state]
          omega
        · omega

lemma monitorLoop_noTrigger_cons (init exp : Int) (s : L1State) (t : L1Tick)
    (rest : List L1Tick) (hs : s.cancelled = false) (hcan : t.cancelNow = false)
    (hcap : t.elapsed ≤ L1_HARD_MAX_TIMEOUT_MS)
    (hpoll : ∀ b, t.poll = some b → b - init < minExpectedOf exp) :
    monitorLoop init exp s (t :: rest) =
      monitorLoop init exp (monitorLoop.l1AfterPoll (applyController s t) t) rest := by
  have hc : (applyController s t).cancelled = false :=
    applyController_cancelled_false s t hs hcan
  simp only [monitorLoop]
  rw [if_neg (by simp [hc]), if_neg (not_lt.mpr hcap)]
  cases hp : t.poll with
  | none => rfl
  | some b =>
    dsimp only
    rw [if_neg (not_le.mpr (hpoll b hp))]

lemma l1_first_cancel : ∀ (pre : List L1Tick) (init exp : Int) (s : L1State)
    (t : L1Tick) (rest : List L1Tick),
    (∀ u ∈ pre, l1NoTrigger init exp u) → s.cancelled = false → t.cancelNow = true →
    ∃ s2, monitorLoop init exp s (pre ++ t :: rest) = .cancelledOut t.elapsed s2
  | [], init, exp, s, t, rest => by
    intro _ _ hc
    refine ⟨applyController s t, ?_⟩
    simp only [List.nil_append, monitorLoop]
    rw [if_pos (applyController_cancelled_true s t hc)]
  | p :: pre, init, exp, s, t, rest => by
    intro hpre hs hc
    obtain ⟨hc0, hh0, hb0⟩ := hpre p (List.mem_cons_self p pre)
    rw [List.cons_append,
      monitorLoop_noTrigger_cons init exp s p (pre ++ t :: rest) hs hc0 hh0 hb0]
    exact l1_first_cancel pre init exp _ t rest
      (fun u hu => hpre u (List.mem_cons_of_mem p hu))
      (by rw [l1AfterPoll_cancelled]; exact applyController_cancelled_false s p hs hc0) hc

lemma l1_first_hard_cap : ∀ (pre : List L1Tick) (init exp : Int) (s : L1State)
    (t : L1Tick) (rest : List L1Tick),
    (∀ u ∈ pre, l1NoTrigger init exp u) → s.cancelled = false →
    t.cancelNow = false → t.elapsed > L1_HARD_MAX_TIMEOUT_MS →
    ∃ s2, monitorLoop init exp s (pre ++ t :: rest) = .maxTimeout t.elapsed s2
  | [], init, exp, s, t, rest => by
    intro _ hs hc hcap
    refine ⟨applyController s t, ?_⟩
    simp only [List.nil_append, monitorLoop]
    rw [if_neg (by simp [applyController_cancelled_false s t hs hc]), if_pos hcap]
  | p :: pre, init, exp, s, t, rest => by
    intro hpre hs hc hcap
    obtain ⟨hc0, hh0, hb0⟩ := hpre p (List.mem_cons_self p pre)
    rw [List.cons_append,
      monitorLoop_noTrigger_cons init exp s p (pre ++ t :: rest) hs hc0 hh0 hb0]
    exact l1_first_hard_cap pre init exp _ t rest
      (fun u hu => hpre u (List.mem_cons_of_mem p hu))
      (by rw [l1AfterPoll_cancelled]; exact applyController_cancelled_false s p hs hc0)
      hc hcap

lemma monitorLoop_confirmed : ∀ (ticks : List L1Tick) (init exp : Int) (s : L1State)
    (amount : Int) (s2 : L1State),
    monitorLoop init exp s ticks = .confirmed amount s2 →
    amount ≥ minExpectedOf exp ∧ ∃ t ∈ ticks, t.poll = some (init + amount)
  | [], init, exp, s, amount, s2 => by
    intro h
    exact L1Outcome.noConfusion h
  | t :: rest, init, exp, s, amount, s2 => by
    intro h
    simp only [monitorLoop] at h
    by_cases hc : (applyController s t).cancelled = true
    · rw [if_pos hc] at h
      exact L1Outcome.noConfusion h
    · rw [if_neg hc] at h
      by_cases hh : t.elapsed > L1_HARD_MAX_TIMEOUT_MS
      · rw [if_pos hh] at h
        exact L1Outcome.noConfusion h
      · rw [if_neg hh] at h
        cases hp : t.poll with
        | none =>
          rw [hp] at h
          dsimp only at h
          obtain ⟨h1, u, hu, hb⟩ := monitorLoop_confirmed rest init exp _ amount s2 h
          exact ⟨h1, u, List.mem_cons_of_mem t hu, hb⟩
        | some b =>
          rw [hp] at h
          dsimp only at h
          by_cases hconf : b - init ≥ minExpectedOf exp
          · rw [if_pos hconf] at h
            injection h with ha hs2
            have hb : b = init + amount := by omega
            refine ⟨by omega, t, List.mem_cons_self t rest, ?_⟩
            rw [hp, hb]
          · rw [if_neg hconf] at h
            obtain ⟨h1, u, hu, hb⟩ := monitorLoop_confirmed rest init exp _ amount s2 h
            exact ⟨h1, u, List.mem_cons_of_mem t hu, hb⟩

/-- C8: the soft-timeout warning fires at most once per activation —
over any schedule the monitor emits at most `1 + number of
extendTimeout calls` warnings; a single `extendTimeout(ms)` between
iterations grows the soft budget by `ms` and re-arms the latch;
after any prefix of non-triggering iterations, a `cancel()` makes the
loop reject as cancelled and an elapsed time beyond the 30-minute
hard cap makes it reject as max-timeout; a confirmed outcome only
arises from an observed balance whose delta over the initial balance
reaches 99% of the expected amount; and a concrete schedule crossing
the soft timeout, extending, and crossing again collects exactly two
warnings while continuing to poll. -/
theorem C8_claim :
    (∀ (init exp T : Int) (ticks : List L1Tick),
      (monitorLoop init exp { timeout := T } ticks).state.warnings ≤
        1 + countExtendCalls ticks) ∧
    (∀ (s : L1State) (t : L1Tick) (ms : Int), t.cancelNow = false → t.extendCalls = [ms] →
      applyController s t =
        { s with timeout := s.timeout + ms, timeoutWarningEmitted := false }) ∧
    (∀ (init exp : Int) (pre : List L1Tick) (t : L1Tick) (rest : List L1Tick) (T : Int),
      (∀ u ∈ pre, l1NoTrigger init exp u) → t.cancelNow = true →
      ∃ s2, monitorLoop init exp { timeout := T } (pre ++ t :: rest) =
        .cancelledOut t.elapsed s2) ∧
    (∀ (init exp : Int) (pre : List L1Tick) (t : L1Tick) (rest : List L1Tick) (T : Int),
      (∀ u ∈ pre, l1NoTrigger init exp u) → t.cancelNow = false →
      t.elapsed > L1_HARD_MAX_TIMEOUT_MS →
      ∃ s2, monitorLoop init exp { timeout := T } (pre ++ t :: rest) =
        .maxTimeout t.elapsed s2) ∧
    (∀ (ticks : List L1Tick) (init exp : Int) (s : L1State) (amount : Int) (s2 : L1State),
      monitorLoop init exp s ticks = .confirmed amount s2 →
      amount ≥ minExpectedOf exp ∧ ∃ t ∈ ticks, t.poll = some (init + amount)) ∧
    (monitorLoop 0 100 { timeout := 120000 }
        [⟨130000, false, [], some 0⟩, ⟨140000, false, [50000], some 0⟩,
          ⟨180000, false, [], some 0⟩]).state.warnings = 2 := by
  refine ⟨?_, ?_, ?_, ?_, monitorLoop_confirmed, by rfl⟩
  · intro init exp T ticks
    have h1 := monitorLoop_l1W ticks init exp { timeout := T }
    have h2 : (monitorLoop init exp { timeout := T } ticks).state.warnings ≤
        l1W (monitorLoop init exp { timeout := T } ticks).state := Nat.le_add_right _ _
    have h3 : l1W { timeout := T } = 1 := rfl
    omega
  · intro s t ms hc he
    simp only [applyController]
    rw [he, hc]
    rfl
  · intro init exp pre t rest T hpre hc
    exact l1_first_cancel pre init exp { timeout := T } t rest hpre rfl hc
  · intro init exp pre t rest T hpre hc hcap
    exact l1_first_hard_cap pre init exp { timeout := T } t rest hpre rfl hc hcap

/-- C8 witness: the confirmation-soundness conjunct applied to a
one-tick schedule whose poll shows a delta of 250 against an expected
amount of 100: the loop confirms with that amount, which indeed clears
the 99% floor. -/
theorem C8_claim_witness :
    monitorLoop 0 100 { timeout := 120000 } [⟨10000, false, [], some 250⟩] =
      .confirmed 250 { timeout := 120000 } ∧ 250 ≥ minExpectedOf 100 :=
  ⟨rfl, (C8_claim.2.2.2.2.1 [⟨10000, false, [], some 250⟩] 0 100 { timeout := 120000 }
      250 { timeout := 120000 } rfl).1⟩

/-! Fail-fast quote validation at the entry of `execute` (claim C4). -/

/-- C4 counterexample: a quote whose `expiresAt` equals `now` — so
`expiresAt ≤ now` holds — passes validation instead of throwing
`QuoteExpired`; the code rejects only on the strict `now > expiresAt`. -/
theorem C4_counterexample :
    w6Quote.expiresAt ≤ 1000060000 ∧
    validateQuote (some w6Quote) 1000060000 = .ok w6Quote :=
  ⟨by decide, by rfl⟩

/-- C4 (amended): `execute` fails fast before any side effect — a null
quote, a missing id, empty steps or missing amounts throw
`InvalidQuote`; a quote with a non-zero `expiresAt` strictly in the
past (`now > expiresAt`, not `expiresAt ≤ now`) throws `QuoteExpired`
and otherwise validation succeeds; and whenever validation throws,
`execute` rethrows that error with no event emitted and the registry
unchanged, so no entry is created and no executionId is allocated. -/
theorem C4_amended :
    (∀ now : Int,
      validateQuote none now =
        .error (.invalidQuote "Quote is null or undefined" "null_quote")) ∧
    (∀ (q : Quote) (now : Int), q.id = "" →
      validateQuote (some q) now =
        .error (.invalidQuote "Quote is missing ID" "missing_id")) ∧
    (∀ (q : Quote) (now : Int), q.id ≠ "" → q.steps = [] →
      validateQuote (some q) now =
        .error (.invalidQuote "Quote has no execution steps" "no_steps")) ∧
    (∀ (q : Quote) (now : Int), q.id ≠ "" → q.steps ≠ [] →
      q.fromAmount = "" ∨ q.toAmount = "" →
      validateQuote (some q) now =
        .error (.invalidQuote "Quote is missing amount information" "missing_amounts")) ∧
    (∀ (q : Quote) (now : Int), q.id ≠ "" → q.steps ≠ [] →
      q.fromAmount ≠ "" → q.toAmount ≠ "" →
      (q.expiresAt ≠ 0 ∧ now > q.expiresAt →
        validateQuote (some q) now =
          .error (.quoteExpired "Quote has expired, please fetch a new one" q.expiresAt)) ∧
      (¬(q.expiresAt ≠ 0 ∧ now > q.expiresAt) → validateQuote (some q) now = .ok q)) ∧
    (∀ (q? : Option Quote) (executionId : String) (oracle : ExecOracle)
        (store : Store) (now : Int) (e : SdkError),
      validateQuote q? now = .error e →
      execute q? executionId oracle store now = ⟨.error e, [], store⟩) := by
  refine ⟨fun now => rfl, ?_, ?_, ?_, ?_, ?_⟩
  · intro q now hid
    simp only [validateQuote]
    rw [if_pos hid]
  · intro q now hid hsteps
    simp only [validateQuote]
    rw [if_neg hid, if_pos (by simp [hsteps])]
  · intro q now hid hsteps hamt
    simp only [validateQuote]
    rw [if_neg hid, if_neg (by simp [List.isEmpty_iff, hsteps]), if_pos hamt]
  · intro q now hid hsteps hfa hta
    constructor
    · intro hex
      simp only [validateQuote]
      rw [if_neg hid, if_neg (by simp [List.isEmpty_iff, hsteps]),
        if_neg (not_or.mpr ⟨hfa, hta⟩), if_pos hex]
    · intro hnex
      simp only [validateQuote]
      rw [if_neg hid, if_neg (by simp [List.isEmpty_iff, hsteps]),
        if_neg (not_or.mpr ⟨hfa, hta⟩), if_neg hnex]
      have hcond : ¬((if q.expiresAt ≠ 0 then q.expiresAt - MAX_QUOTE_AGE_MS else 0) > 0 ∧
          now - (if q.expiresAt ≠ 0 then q.expiresAt - MAX_QUOTE_AGE_MS else 0) >
            MAX_QUOTE_AGE_MS) := by
        push_neg at hnex
        by_cases hz : q.expiresAt = 0
        · rw [if_neg (fun h => h hz)]
          intro hc
          exact absurd hc.1 (by norm_num)
        · rw [if_pos hz]
          rintro ⟨h1, h2⟩
          have hle := hnex hz
          unfold MAX_QUOTE_AGE_MS at h1 h2
          omega
      rw [if_neg hcond]
  · intro q? executionId oracle store now e hval
    unfold execute
    rw [hval]

/-- C4 witness: the expiry and fail-fast conjuncts of the amended
theorem at the concrete quote and a late clock — validation throws
`QuoteExpired` and `execute` rethrows it with an empty event list and
the (empty) registry untouched. -/
theorem C4_amended_witness :
    execute (some w6Quote) "exec-1" trivialOracle [] 2000000000 =
      ⟨.error (.quoteExpired "Quote has expired, please fetch a new one" 1000060000),
        [], []⟩ := by
  have hexp := (C4_amended.2.2.2.2.1 w6Quote 2000000000 (by decide) (by decide)
      (by decide) (by decide)).1 ⟨by decide, by decide⟩
  exact C4_amended.2.2.2.2.2 (some w6Quote) "exec-1" trivialOracle [] 2000000000 _ hexp

/-! Error funnel of `execute` (claim C1). -/

lemma lookup_map_replace_self (m : Store) (id : String) (v : ExecutionState) :
    (m.lookup id).isSome = true →
    ((m.map (fun e => if e.1 == id then (id, v) else e)).lookup id) = some v := by
  induction m with
  | nil =>
    intro h
    simp [List.lookup] at h
  | cons hd tl ih =>
    obtain ⟨k, w⟩ := hd
    intro h
    rw [List.map_cons]
    by_cases hk : ((k, w).1 == id) = true
    · rw [if_pos hk]
      simp only [List.lookup]
      rw [show (id == id) = true from by simp]
    · rw [if_neg hk]
      have hik : (id == k) = false := by
        cases hik2 : (id == k) with
        | false => rfl
        | true =>
          have hek : id = k := by simpa using hik2
          exact absurd (by simp [hek] : ((k, w).1 == id) = true) hk
      simp only [List.lookup, hik] at h ⊢
      exact ih h

lemma lookup_append_single_self (m : Store) (id : String) (v : ExecutionState) :
    m.lookup id = none → ((m ++ [(id, v)]).lookup id) = some v := by
  induction m with
  | nil =>
    intro _
    simp only [List.nil_append, List.lookup]
    rw [show (id == id) = true from by simp]
  | cons hd tl ih =>
    obtain ⟨k, w⟩ := hd
    intro h
    simp only [List.cons_append, List.lookup] at h ⊢
    cases hik : (id == k) with
    | true =>
      rw [hik] at h
      exact Option.noConfusion h
    | false =>
      rw [hik] at h
      exact ih h

lemma lookup_storeSet_self (m : Store) (id : String) (v : ExecutionState) :
    ((storeSet id v m).lookup id) = some v := by
  unfold storeSet
  split_ifs with h
  · exact lookup_map_replace_self m id v h
  · refine lookup_append_single_self m id v ?_
    cases hl : m.lookup id with
    | none => rfl
    | some w => exact absurd (by rw [hl]; rfl : (m.lookup id).isSome = true) h

lemma update_keeps (now : Int) (id : String) (u : ExecUpdate) (m : Store)
    (h : (m.lookup id).isSome = true) :
    (((ExecutionStore.update now id u m).lookup id)).isSome = true := by
  unfold ExecutionStore.update
  cases hl : m.lookup id with
  | none =>
    rw [hl] at h
    exact absurd h (by simp)
  | some st =>
    dsimp only
    rw [lookup_storeSet_self]
    rfl

lemma updateStep_keeps (now : Int) (id stepId : String) (u : StepUpdate) (m : Store)
    (h : (m.lookup id).isSome = true) :
    (((ExecutionStore.updateStep now id stepId u m).lookup id)).isSome = true := by
  unfold ExecutionStore.updateStep
  cases hl : m.lookup id with
  | none =>
    rw [hl] at h
    exact absurd h (by simp)
  | some st =>
    dsimp only
    split_ifs with hf
    · exact update_keeps now id _ m h
    · exact h

lemma lookup_update_self (now : Int) (id : String) (u : ExecUpdate) (m : Store)
    (st : ExecutionState) (h : m.lookup id = some st) :
    ∃ st2, ((ExecutionStore.update now id u m).lookup id) = some st2 ∧
      st2.status = u.status.getD st.status ∧
      st2.error = (match u.error with | some v => some v | none => st.error) := by
  unfold ExecutionStore.update
  rw [h]
  exact ⟨_, lookup_storeSet_self m id _, rfl, rfl⟩

lemma create_keeps (now : Int) (p : CreateParams) (m : Store) :
    ((ExecutionStore.create now p m).lookup p.executionId).isSome = true := by
  unfold ExecutionStore.create
  dsimp only
  rw [lookup_storeSet_self]
  rfl

lemma loopInv_emitEvent (execId : String) (st : LoopState) (e : SdkEvent)
    (he : e ≠ SdkEvent.executionCompleted) (h : loopInv execId st) :
    loopInv execId (emitEvent st e) := by
  obtain ⟨h1, h2, h3⟩ := h
  refine ⟨?_, h2, h3⟩
  intro hmem
  have hmem2 : SdkEvent.executionCompleted ∈ st.events ++ [e] := hmem
  rcases List.mem_append.mp hmem2 with hm | hm
  · exact h1 hm
  · exact he (List.mem_singleton.mp hm).symm

lemma loopInv_withStore (execId : String) (st : LoopState) (m : Store)
    (hm : (m.lookup execId).isSome = true) (h : loopInv execId st) :
    loopInv execId { st with store := m } := by
  obtain ⟨h1, h2, _⟩ := h
  exact ⟨h1, h2, hm⟩

lemma loopInv_updateStatus (execId : String) (ctx : OrchCtx) (hid : ctx.executionId = execId)
    (st : LoopState) (status : OrchStatus) (sub : String) (h : loopInv execId st) :
    loopInv execId (updateStatus ctx st status sub) := by
  obtain ⟨h1, h2, h3⟩ := h
  unfold updateStatus
  dsimp only
  refine loopInv_emitEvent execId _ _ (by decide) ?_
  refine ⟨h1, h2, ?_⟩
  rw [hid]
  exact update_keeps ctx.now execId _ st.store h3

lemma some_ne_active {v : StepRunStatus} (hv : v ≠ StepRunStatus.active) :
    (some v : Option StepRunStatus) ≠ some StepRunStatus.active :=
  fun hx => hv (Option.some.inj hx)

lemma none_ne_active : (none : Option StepRunStatus) ≠ some StepRunStatus.active :=
  fun hx => Option.noConfusion hx

lemma status_ne_active_of_upd (u : OrchStepUpdate) (hu : u.status ≠ some StepRunStatus.active)
    (s0 : StepRunStatus) (hs0 : s0 ≠ StepRunStatus.active) :
    u.status.getD s0 ≠ StepRunStatus.active := by
  cases hu0 : u.status with
  | none => exact hs0
  | some v =>
    intro hv
    apply hu
    rw [hu0]
    rw [show v = StepRunStatus.active from hv]

lemma loopInv_updateStep (execId : String) (ctx : OrchCtx) (hid : ctx.executionId = execId)
    (st : LoopState) (sid : String) (u : OrchStepUpdate)
    (hu : u.status ≠ some StepRunStatus.active) (h : loopInv execId st) :
    loopInv execId (updateStep ctx st sid u) := by
  obtain ⟨h1, h2, h3⟩ := h
  unfold updateStep
  dsimp only
  have hsteps : ∀ s ∈ st.stepStatuses.map (fun s =>
      if s.stepId == sid then
        { s with
          status := u.status.getD s.status
          txHash := match u.txHash with | some v => some v | none => s.txHash
          error := match u.error with | some v => some v | none => s.error
          updatedAt := ctx.now }
      else s), s.status ≠ StepRunStatus.active := by
    intro s hs
    obtain ⟨s0, hs0, rfl⟩ := List.mem_map.mp hs
    by_cases hsid : (s0.stepId == sid) = true
    · rw [if_pos hsid]
      exact status_ne_active_of_upd u hu s0.status (h2 s0 hs0)
    · rw [if_neg hsid]
      exact h2 s0 hs0
  split
  · exact ⟨h1, hsteps, h3⟩
  · refine loopInv_emitEvent execId _ _ (by decide) ?_
    refine ⟨h1, hsteps, ?_⟩
    rw [hid]
    exact updateStep_keeps ctx.now execId sid _ st.store h3

lemma loopInv_selfUpdate (execId : String) (ctx : OrchCtx) (hid : ctx.executionId = execId)
    (st : LoopState) (u : ExecUpdate) (h : loopInv execId st) :
    loopInv execId { st with store := ExecutionStore.update ctx.now ctx.executionId u st.store } := by
  obtain ⟨h1, h2, h3⟩ := h
  refine ⟨h1, h2, ?_⟩
  rw [hid]
  exact update_keeps ctx.now execId u st.store h3

lemma loopInv_selfUpdateRecv (execId : String) (ctx : OrchCtx) (hid : ctx.executionId = execId)
    (st : LoopState) (amt : String) (h : loopInv execId st) :
    loopInv execId
      { st with
        receivedAmount := some amt
        store := ExecutionStore.update ctx.now ctx.executionId
          { receivedAmount := some amt } st.store } := by
  obtain ⟨h1, h2, h3⟩ := h
  refine ⟨h1, h2, ?_⟩
  rw [hid]
  exact update_keeps ctx.now execId _ st.store h3

lemma loopInv_recvAll (execId : String) (ctx : OrchCtx) (hid : ctx.executionId = execId)
    (st : LoopState) (amt : String) (v : Option String) (h : loopInv execId st) :
    loopInv execId
      { st with
        receivedAmount := some amt
        store := ExecutionStore.update ctx.now ctx.executionId
          { receivedAmount := some amt } st.store
        receivingTxHash := v } := by
  obtain ⟨h1, h2, h3⟩ := h
  refine ⟨h1, h2, ?_⟩
  rw [hid]
  exact update_keeps ctx.now execId _ st.store h3

lemma loopInv_withFinalTx (execId : String) (st : LoopState) (v : Option String)
    (h : loopInv execId st) : loopInv execId { st with finalTxHash := v } := h

lemma loopInv_withRecvTx (execId : String) (st : LoopState) (v : Option String)
    (h : loopInv execId st) : loopInv execId { st with receivingTxHash := v } := h

lemma runStepMain_dispatch (execId : String) (ctx : OrchCtx) (hid : ctx.executionId = execId)
    (step : Step) (so : StepOracle) (st : LoopState) (h : loopInv execId st) :
    ∃ st2, loopInv execId st2 ∧
      (runStepMain ctx step so st = .ok st2 ∨
       ∃ e, runStepMain ctx step so st = .error (e, st2)) := by
  unfold runStepMain
  have hA : loopInv execId (updateStatus ctx st .executing
      ("Executing " ++ stepKindName (mapExecStepType step.type) ++ "...")) :=
    loopInv_updateStatus execId ctx hid st .executing
      ("Executing " ++ stepKindName (mapExecStepType step.type) ++ "...") h
  cases hms : so.mainSend with
  | error e =>
    dsimp only
    by_cases hrej : isUserRejection e = true
    · rw [if_pos hrej]
      exact ⟨_, loopInv_updateStep execId ctx hid _ step.id
        { status := some .failed, error := some "User rejected" }
        (by exact some_ne_active (by decide)) hA, .inr ⟨_, rfl⟩⟩
    · rw [if_neg hrej]
      exact ⟨_, loopInv_updateStep execId ctx hid _ step.id
        { status := some .failed, error := some e.message }
        (by exact some_ne_active (by decide)) hA, .inr ⟨_, rfl⟩⟩
  | ok txHash =>
    dsimp only
    cases hcomp : so.completion with
    | error e =>
      dsimp only
      by_cases hrej : isUserRejection e = true
      · rw [if_pos hrej]
        refine ⟨_, ?_, .inr ⟨_, rfl⟩⟩
        refine loopInv_updateStep execId ctx hid _ _ _ (some_ne_active (by decide)) ?_
        refine loopInv_updateStatus execId ctx hid _ _ _ ?_
        refine loopInv_selfUpdate execId ctx hid _ _ ?_
        refine loopInv_updateStep execId ctx hid _ _ _ (some_ne_active (by decide)) ?_
        refine loopInv_emitEvent execId _ _ (by decide) ?_
        refine loopInv_withFinalTx execId _ _ ?_
        exact hA
      · rw [if_neg hrej]
        refine ⟨_, ?_, .inr ⟨_, rfl⟩⟩
        refine loopInv_updateStep execId ctx hid _ _ _ (some_ne_active (by decide)) ?_
        refine loopInv_updateStatus execId ctx hid _ _ _ ?_
        refine loopInv_selfUpdate execId ctx hid _ _ ?_
        refine loopInv_updateStep execId ctx hid _ _ _ (some_ne_active (by decide)) ?_
        refine loopInv_emitEvent execId _ _ (by decide) ?_
        refine loopInv_withFinalTx execId _ _ ?_
        exact hA
    | ok finalStatus =>
      dsimp only
      cases hra : finalStatus.receivingAmount with
      | some amt =>
        dsimp only
        cases hrh : finalStatus.receivingTxHash with
        | some hh =>
          dsimp only
          refine ⟨_, ?_, .inl rfl⟩
          refine loopInv_recvAll execId ctx hid _ _ _ ?_
          refine loopInv_updateStep execId ctx hid _ _ _ (some_ne_active (by decide)) ?_
          refine loopInv_emitEvent execId _ _ (by decide) ?_
          refine loopInv_updateStatus execId ctx hid _ _ _ ?_
          refine loopInv_selfUpdate execId ctx hid _ _ ?_
          refine loopInv_updateStep execId ctx hid _ _ _ (some_ne_active (by decide)) ?_
          refine loopInv_emitEvent execId _ _ (by decide) ?_
          refine loopInv_withFinalTx execId _ _ ?_
          exact hA
        | none =>
          dsimp only
          refine ⟨_, ?_, .inl rfl⟩
          refine loopInv_selfUpdateRecv execId ctx hid _ _ ?_
          refine loopInv_updateStep execId ctx hid _ _ _ (some_ne_active (by decide)) ?_
          refine loopInv_emitEvent execId _ _ (by decide) ?_
          refine loopInv_updateStatus execId ctx hid _ _ _ ?_
          refine loopInv_selfUpdate execId ctx hid _ _ ?_
          refine loopInv_updateStep execId ctx hid _ _ _ (some_ne_active (by decide)) ?_
          refine loopInv_emitEvent execId _ _ (by decide) ?_
          refine loopInv_withFinalTx execId _ _ ?_
          exact hA
      | none =>
        dsimp only
        cases hrh : finalStatus.receivingTxHash with
        | some hh =>
          dsimp only
          refine ⟨_, ?_, .inl rfl⟩
          refine loopInv_withRecvTx execId _ _ ?_
          refine loopInv_updateStep execId ctx hid _ _ _ (some_ne_active (by decide)) ?_
          refine loopInv_emitEvent execId _ _ (by decide) ?_
          refine loopInv_updateStatus execId ctx hid _ _ _ ?_
          refine loopInv_selfUpdate execId ctx hid _ _ ?_
          refine loopInv_updateStep execId ctx hid _ _ _ (some_ne_active (by decide)) ?_
          refine loopInv_emitEvent execId _ _ (by decide) ?_
          refine loopInv_withFinalTx execId _ _ ?_
          exact hA
        | none =>
          dsimp only
          refine ⟨_, ?_, .inl rfl⟩
          refine loopInv_updateStep execId ctx hid _ _ _ (some_ne_active (by decide)) ?_
          refine loopInv_emitEvent execId _ _ (by decide) ?_
          refine loopInv_updateStatus execId ctx hid _ _ _ ?_
          refine loopInv_selfUpdate execId ctx hid _ _ ?_
          refine loopInv_updateStep execId ctx hid _ _ _ (some_ne_active (by decide)) ?_
          refine loopInv_emitEvent execId _ _ (by decide) ?_
          refine loopInv_withFinalTx execId _ _ ?_
          exact hA

lemma runStepApproval_dispatch (execId : String) (ctx : OrchCtx)
    (hid : ctx.executionId = execId) (step : Step) (stepTx : StepTxResponse)
    (so : StepOracle) (st : LoopState) (h : loopInv execId st) :
    ∃ st2, loopInv execId st2 ∧
      (runStepApproval ctx step stepTx so st = .ok st2 ∨
       ∃ e, runStepApproval ctx step stepTx so st = .error (e, st2)) := by
  unfold runStepApproval
  cases hap : (if step.type != QuoteStepType.approve then
      stepTx.estimate.bind (fun est => est.approvalAddress) else none) with
  | none => exact ⟨st, h, .inl rfl⟩
  | some sp =>
    dsimp only
    by_cases hneed : checkApprovalNeeded step.fromTokenAddress so.allowance step.fromAmount = true
    · rw [if_pos hneed]
      have hA := loopInv_updateStatus execId ctx hid st .approving
        "Waiting for token approval..." h
      have hB := loopInv_emitEvent execId _ SdkEvent.approvalRequired (by decide) hA
      cases hat : so.approvalTx with
      | error e => exact ⟨_, hB, .inr ⟨_, rfl⟩⟩
      | ok u =>
        dsimp only
        cases has : so.approvalSend with
        | error e => exact ⟨_, hB, .inr ⟨_, rfl⟩⟩
        | ok atx =>
          dsimp only
          have hC := loopInv_emitEvent execId _ SdkEvent.transactionSent (by decide) hB
          have hD := loopInv_updateStatus execId ctx hid _ .approved
            "Token approval confirmed" hC
          have hE := loopInv_emitEvent execId _ SdkEvent.transactionConfirmed (by decide) hD
          exact ⟨_, loopInv_updateStep execId ctx hid _ step.id
            { txHash := some atx } (by exact none_ne_active) hE, .inl rfl⟩
    · rw [if_neg hneed]
      exact ⟨st, h, .inl rfl⟩

lemma runStep_dispatch (execId : String) (ctx : OrchCtx) (hid : ctx.executionId = execId)
    (i : Nat) (step : Step) (so : StepOracle) (st : LoopState) (h : loopInv execId st) :
    ∃ st2, loopInv execId st2 ∧
      (runStep ctx i step so st = .ok st2 ∨ ∃ e, runStep ctx i step so st = .error (e, st2)) := by
  unfold runStep
  dsimp only
  have h0 : loopInv execId { st with currentStepIndex := (i : Int) } := h
  by_cases hdep : (step.type == QuoteStepType.deposit) = true
  · rw [if_pos hdep]
    exact ⟨_, loopInv_updateStep execId ctx hid _ step.id
      { status := some .pending } (by decide) h0, .inl rfl⟩
  · rw [if_neg hdep]
    have h1 := loopInv_updateStep execId ctx hid _ step.id
      { status := some .executing } (by decide) h0
    cases hstx : so.stepTx with
    | error e => exact ⟨_, h1, .inr ⟨e, rfl⟩⟩
    | ok stepTx =>
      dsimp only
      obtain ⟨stA, hA, hres⟩ := runStepApproval_dispatch execId ctx hid step stepTx so _ h1
      rcases hres with hres | ⟨e, hres⟩
      · rw [hres]
        dsimp only
        exact runStepMain_dispatch execId ctx hid step so stA hA
      · rw [hres]
        exact ⟨stA, hA, .inr ⟨e, rfl⟩⟩

lemma runSteps_dispatch (execId : String) (ctx : OrchCtx) (hid : ctx.executionId = execId)
    (oracle : ExecOracle) :
    ∀ (steps : List Step) (n : Nat) (st : LoopState), loopInv execId st →
    ∃ st2, loopInv execId st2 ∧
      (runSteps ctx oracle n steps st = .ok st2 ∨
       ∃ e, runSteps ctx oracle n steps st = .error (e, st2))
  | [], n, st, h => ⟨st, h, .inl rfl⟩
  | step :: rest, n, st, h => by
    obtain ⟨stA, hA, hres⟩ := runStep_dispatch execId ctx hid n step (oracle.step n) st h
    simp only [runSteps]
    rcases hres with hres | ⟨e, hres⟩
    · rw [hres]
      dsimp only
      exact runSteps_dispatch execId ctx hid oracle rest (n + 1) stA hA
    · rw [hres]
      exact ⟨stA, hA, .inr ⟨e, rfl⟩⟩

lemma execute_shape (q : Quote) (executionId : String) (oracle : ExecOracle)
    (store : Store) (now : Int) (q? : Option Quote)
    (hval : validateQuote q? now = .ok q) :
    ∃ st, loopInv executionId st ∧
      (execute q? executionId oracle store now = executeOk q executionId now st ∨
       ∃ e, execute q? executionId oracle store now = executeFail q executionId now e st) := by
  unfold execute
  rw [hval]
  dsimp only
  have hinv0 : loopInv executionId
      { stepStatuses := createInitialStepStatuses q.steps now
        events := [SdkEvent.executionStarted]
        store := ExecutionStore.create now
          { executionId := executionId
            quoteId := q.id
            steps := q.steps.map (fun s => (s.id, mapExecStepType s.type))
            fromAmount := q.fromAmount
            toAmount := q.toAmount
            fromChainId := (q.steps.head?.map (fun s => s.fromChainId)).getD 0
            toChainId := (q.steps.getLast?.map (fun s => s.toChainId)).getD 0
            estimatedTime := q.estimatedTime } store
        currentStepIndex := 0 } := by
    refine ⟨?_, ?_, ?_⟩
    · intro hmem
      exact SdkEvent.noConfusion (List.mem_singleton.mp hmem)
    · intro s hs
      obtain ⟨s0, _, rfl⟩ := List.mem_map.mp hs
      exact (by decide : StepRunStatus.pending ≠ StepRunStatus.active)
    · exact create_keeps now
        { executionId := executionId
          quoteId := q.id
          steps := q.steps.map (fun s => (s.id, mapExecStepType s.type))
          fromAmount := q.fromAmount
          toAmount := q.toAmount
          fromChainId := (q.steps.head?.map (fun s => s.fromChainId)).getD 0
          toChainId := (q.steps.getLast?.map (fun s => s.toChainId)).getD 0
          estimatedTime := q.estimatedTime } store
  cases hga : oracle.getAddress with
  | error e =>
    dsimp only
    exact ⟨_, hinv0, .inr ⟨e, rfl⟩⟩
  | ok addr =>
    dsimp only
    obtain ⟨st2, h2, hres⟩ := runSteps_dispatch executionId
      { quote := q, executionId := executionId, now := now } rfl oracle q.steps 0 _ hinv0
    rcases hres with hres | ⟨e, hres⟩
    · rw [hres]
      exact ⟨st2, h2, .inl rfl⟩
    · rw [hres]
      exact ⟨st2, h2, .inr ⟨e, rfl⟩⟩

lemma executeOk_spec (q : Quote) (executionId : String) (now : Int) (st : LoopState) :
    ∃ r, (executeOk q executionId now st).outcome = .ok r ∧
      r.status = ExecStatus.completed ∧ r.executionId = executionId :=
  ⟨_, rfl, rfl, rfl⟩

lemma executeFail_spec (q : Quote) (executionId : String) (now : Int) (e : SdkError)
    (st : LoopState) (h : loopInv executionId st) :
    ∃ r, (executeFail q executionId now e st).outcome = .ok r ∧
      r.status = ExecStatus.failed ∧
      r.executionId = executionId ∧
      r.error = some e ∧
      SdkEvent.executionFailed ∈ (executeFail q executionId now e st).events ∧
      SdkEvent.executionCompleted ∉ (executeFail q executionId now e st).events ∧
      (∀ s ∈ r.steps, s.status = StepRunStatus.completed ∨ s.status = StepRunStatus.failed) ∧
      ∃ entry, ((executeFail q executionId now e st).store.lookup executionId) = some entry ∧
        entry.status = ExecStatus.failed ∧ entry.error = some e.message := by
  obtain ⟨h1, h2, h3⟩ := h
  refine ⟨_, rfl, rfl, rfl, rfl, ?_, ?_, ?_, ?_⟩
  · show SdkEvent.executionFailed ∈
      (st.events ++ [SdkEvent.statusChanged]) ++ [SdkEvent.executionFailed]
    exact List.mem_append_right _ (List.mem_singleton.mpr rfl)
  · intro hmem
    have hmem2 : SdkEvent.executionCompleted ∈
        (st.events ++ [SdkEvent.statusChanged]) ++ [SdkEvent.executionFailed] := hmem
    rcases List.mem_append.mp hmem2 with hm | hm
    · rcases List.mem_append.mp hm with hm2 | hm2
      · exact h1 hm2
      · exact absurd (List.mem_singleton.mp hm2) (by decide)
    · exact absurd (List.mem_singleton.mp hm) (by decide)
  · intro s hs
    have hs2 : s ∈ st.stepStatuses.map (fun s =>
        if s.status == StepRunStatus.pending || s.status == StepRunStatus.executing then
          { s with status := StepRunStatus.failed, updatedAt := now }
        else s) := hs
    obtain ⟨s0, hs0, rfl⟩ := List.mem_map.mp hs2
    by_cases hb : (s0.status == StepRunStatus.pending ||
        s0.status == StepRunStatus.executing) = true
    · rw [if_pos hb]
      exact .inr rfl
    · rw [if_neg hb]
      cases hss : s0.status with
      | pending =>
        rw [hss] at hb
        exact absurd (by decide) hb
      | active => exact absurd hss (h2 s0 hs0)
      | executing =>
        rw [hss] at hb
        exact absurd (by decide) hb
      | completed => exact .inl rfl
      | failed => exact .inr rfl
  · have h3b : ((updateStatus { quote := q, executionId := executionId, now := now } st
        OrchStatus.failed e.message).store.lookup executionId).isSome = true :=
      (loopInv_updateStatus executionId { quote := q, executionId := executionId, now := now }
        rfl st .failed e.message ⟨h1, h2, h3⟩).2.2
    obtain ⟨stX, hstX⟩ := Option.isSome_iff_exists.mp h3b
    obtain ⟨entry, hlook, hst, herr⟩ := lookup_update_self now executionId
      { status := some .failed, error := some e.message, substatus := some e.message } _ stX hstX
    exact ⟨entry, hlook, hst, herr⟩

lemma runStepApproval_none (ctx : OrchCtx) (step : Step) (so : StepOracle) (st : LoopState) :
    runStepApproval ctx step { estimate := none } so st = .ok st := by
  unfold runStepApproval
  have happ : (if step.type != QuoteStepType.approve then
      ({ estimate := none } : StepTxResponse).estimate.bind (fun est => est.approvalAddress)
      else none) = none := by
    split_ifs <;> rfl
  rw [happ]

/-- C1 counterexample: a `getStepTransaction` failure whose message
matches a wallet user-rejection pattern is rethrown unchanged — the
resolved failed result carries the original `NetworkError`, not a
normalized `UserRejectedError`, because `isUserRejection` is consulted
only at the approval and main-transaction catch sites. -/
theorem C1_counterexample :
    isUserRejection (SdkError.networkError
      "Failed to get step transaction: User rejected the request") = true ∧
    (execute (some w6Quote) "exec-c1" c1Oracle [] 1000000000).outcome.map
        (fun r => r.error) =
      .ok (some (SdkError.networkError
        "Failed to get step transaction: User rejected the request")) :=
  ⟨by decide, by rfl⟩

/-- C1 (amended): for every quote that passes validation, `execute`
resolves (never rejects) with an `ExecutionResult`; when the pipeline
threw, the result has status failed, carries the error and the
executionId, every step is left completed or failed, an
`EXECUTION_FAILED` event is emitted and no `EXECUTION_COMPLETED`, and
the registry entry records status failed with the error message.
Errors from the main-transaction and approval signer calls matching a
wallet user-rejection pattern are normalized to `UserRejected` (step
re-quote errors are not, per the counterexample), and the normalized
messages make the registry recoverability projection report false. -/
theorem C1_amended :
    (∀ (q? : Option Quote) (executionId : String) (oracle : ExecOracle) (store : Store)
        (now : Int) (q : Quote), validateQuote q? now = .ok q →
      ∃ r, (execute q? executionId oracle store now).outcome = .ok r ∧
        r.executionId = executionId ∧
        (r.status = ExecStatus.completed ∨
          (r.status = ExecStatus.failed ∧
           r.error.isSome = true ∧
           SdkEvent.executionFailed ∈ (execute q? executionId oracle store now).events ∧
           SdkEvent.executionCompleted ∉ (execute q? executionId oracle store now).events ∧
           (∀ s ∈ r.steps, s.status = StepRunStatus.completed ∨
             s.status = StepRunStatus.failed) ∧
           ∃ entry, (((execute q? executionId oracle store now).store).lookup executionId) =
               some entry ∧
             entry.status = ExecStatus.failed ∧
             ∃ e2, r.error = some e2 ∧ entry.error = some e2.message))) ∧
    (∀ (ctx : OrchCtx) (step : Step) (so : StepOracle) (st : LoopState) (e : SdkError),
      so.mainSend = .error e → isUserRejection e = true →
      so.stepTx = .ok { estimate := none } →
      (step.type == QuoteStepType.deposit) = false →
      ∀ (i : Nat), ∃ st2, runStep ctx i step so st =
        .error (.userRejected "User rejected transaction"
          (stepKindName (mapExecStepType step.type)), st2)) ∧
    (∀ (ctx : OrchCtx) (step : Step) (stepTx : StepTxResponse) (so : StepOracle)
        (st : LoopState) (e : SdkError) (sp : String),
      (if step.type != QuoteStepType.approve then
        stepTx.estimate.bind (fun est => est.approvalAddress) else none) = some sp →
      checkApprovalNeeded step.fromTokenAddress so.allowance step.fromAmount = true →
      so.approvalTx = .ok () → so.approvalSend = .error e → isUserRejection e = true →
      ∃ st2, runStepApproval ctx step stepTx so st =
        .error (.userRejected "User rejected approval transaction" "approval", st2)) ∧
    isRecoverableError "User rejected transaction" = false ∧
    isRecoverableError "User rejected approval transaction" = false := by
  refine ⟨?_, ?_, ?_, by decide, by decide⟩
  · intro q? executionId oracle store now q hval
    obtain ⟨st, hinv, hcase⟩ := execute_shape q executionId oracle store now q? hval
    rcases hcase with hok | ⟨e, hfail⟩
    · rw [hok]
      obtain ⟨r, hr, hst, hidr⟩ := executeOk_spec q executionId now st
      exact ⟨r, hr, hidr, .inl hst⟩
    · rw [hfail]
      obtain ⟨r, hr, hst, hidr, herr, hfm, hnc, hsteps, entry, hl, hes, hee⟩ :=
        executeFail_spec q executionId now e st hinv
      refine ⟨r, hr, hidr, .inr ⟨hst, ?_, hfm, hnc, hsteps, entry, hl, hes, e, herr, hee⟩⟩
      rw [herr]
      rfl
  · intro ctx step so st e hms hrej hstx hdep i
    unfold runStep
    dsimp only
    rw [hdep]
    rw [if_neg (by decide : ¬((false : Bool) = true))]
    rw [hstx]
    dsimp only
    rw [runStepApproval_none]
    dsimp only
    unfold runStepMain
    rw [hms]
    dsimp only
    rw [if_pos hrej]
    exact ⟨_, rfl⟩
  · intro ctx step stepTx so st e sp hap hneed hat has hrej
    unfold runStepApproval
    rw [hap]
    dsimp only
    rw [if_pos hneed]
    rw [hat]
    dsimp only
    rw [has]
    dsimp only
    rw [if_pos hrej]
    exact ⟨_, rfl⟩

/-- C1 witness: the resolve-not-reject conjunct of the amended theorem
applied to the concrete valid quote with an oracle whose signer calls
all fail: `execute` resolves with a result carrying the executionId. -/
theorem C1_amended_witness :
    ∃ r, (execute (some w6Quote) "exec-w1" trivialOracle [] 1000000000).outcome = .ok r ∧
      r.executionId = "exec-w1" ∧
      (r.status = ExecStatus.completed ∨
        (r.status = ExecStatus.failed ∧
         r.error.isSome = true ∧
         SdkEvent.executionFailed ∈
           (execute (some w6Quote) "exec-w1" trivialOracle [] 1000000000).events ∧
         SdkEvent.executionCompleted ∉
           (execute (some w6Quote) "exec-w1" trivialOracle [] 1000000000).events ∧
         (∀ s ∈ r.steps, s.status = StepRunStatus.completed ∨
           s.status = StepRunStatus.failed) ∧
         ∃ entry, (((execute (some w6Quote) "exec-w1" trivialOracle [] 1000000000).store).lookup
             "exec-w1") = some entry ∧
           entry.status = ExecStatus.failed ∧
           ∃ e2, r.error = some e2 ∧ entry.error = some e2.message)) :=
  C1_amended.1 (some w6Quote) "exec-w1" trivialOracle [] 1000000000 w6Quote (by rfl)

end Mina
